import Mathlib

/-!
The client-side rating and tag widgets of ourmovies.

A shallow embedding of the three scripts of the repository

* `app/static/js/review.js` : form-backed star rating and tag chooser, bound
  per container by `initReviewUI`;
* `app/static/js/movie.js`  : server-synchronised star rating;
* `static/js/script.js`     : the older form-backed star rating and tag chooser;

followed by the theorems that settle the claims of the specification.

The DOM is modelled by the nodes the scripts read and write.  Handlers are
pure functions from the state before an event to the state after it; a
handler that can throw returns the state reached together with the error.
-/

namespace OurMovies

/-! ## JavaScript values -/

/-- A JavaScript number in the integer range of the widgets: `some k` is the
integer `k`, `none` is `NaN`.  Integers are exact in a double below `2^53`,
far beyond the number of stars a page holds. -/
abbrev JsNum := Option Int

/-- The relational operator `a <= b` on numbers: false when either side is
`NaN`. -/
def jsLe : JsNum → JsNum → Bool
  | some a, some b => decide (a ≤ b)
  | _, _ => false

/-- The relational operator `a < b` on numbers: false when either side is
`NaN`. -/
def jsLt : JsNum → JsNum → Bool
  | some a, some b => decide (a < b)
  | _, _ => false

/-- White space and line terminators skipped by `Number` and `parseInt`
(ECMAScript `StrWhiteSpaceChar`). -/
def isJsWhiteSpace (c : Char) : Bool :=
  [9, 10, 11, 12, 13, 32, 160, 5760, 8232, 8233, 8239, 8287, 12288, 65279].contains c.toNat
    || (8192 ≤ c.toNat && c.toNat ≤ 8202)

/-- ASCII decimal digit. -/
def isDecimalDigit (c : Char) : Bool := 48 ≤ c.toNat && c.toNat ≤ 57

/-- Value of a digit in radix 16 (and so in radix 10), if the character is one. -/
def digitValue (c : Char) : Option Nat :=
  if 48 ≤ c.toNat && c.toNat ≤ 57 then some (c.toNat - 48)
  else if 97 ≤ c.toNat && c.toNat ≤ 102 then some (c.toNat - 87)
  else if 65 ≤ c.toNat && c.toNat ≤ 70 then some (c.toNat - 55)
  else none

/-- Whether the character is a digit of the given radix (10 or 16). -/
def isRadixDigit (radix : Nat) (c : Char) : Bool :=
  match digitValue c with
  | some d => decide (d < radix)
  | none => false

/-- Positional value of a digit string. -/
def radixValue (radix : Nat) (cs : List Char) : Nat :=
  cs.foldl (fun acc c => radix * acc + (digitValue c).getD 0) 0

/-- Strip white space at both ends. -/
def jsTrim (cs : List Char) : List Char :=
  ((cs.dropWhile isJsWhiteSpace).reverse.dropWhile isJsWhiteSpace).reverse

/-- The conversion `Number(s)` of a string, on the integer literals the
markup carries: surrounding white space is skipped, the empty string is `0`,
an optionally signed string of decimal digits is its value.  Every other
string is mapped to `NaN`; decimal fractions, exponents, radix literals and
`Infinity` are outside this model.  The general theorems below use `Number`
only as a function from strings to numbers. -/
def Number (s : String) : JsNum :=
  match jsTrim s.toList with
  | [] => some 0
  | '+' :: ds => if !ds.isEmpty && ds.all isDecimalDigit then some (radixValue 10 ds) else none
  | '-' :: ds => if !ds.isEmpty && ds.all isDecimalDigit then some (-(radixValue 10 ds : Int)) else none
  | ds => if ds.all isDecimalDigit then some (radixValue 10 ds) else none

/-- The global `parseInt(s)` without a radix argument: leading white space is
skipped, then an optional sign, then an optional `0x`, then the longest run
of digits; `NaN` when that run is empty. -/
def parseInt (s : String) : JsNum :=
  let cs := s.toList.dropWhile isJsWhiteSpace
  let signed : Bool × List Char :=
    match cs with
    | '-' :: r => (true, r)
    | '+' :: r => (false, r)
    | r => (false, r)
  let based : Nat × List Char :=
    match signed.2 with
    | '0' :: 'x' :: r => (16, r)
    | '0' :: 'X' :: r => (16, r)
    | r => (10, r)
  let ds := based.2.takeWhile (isRadixDigit based.1)
  if ds.isEmpty then none
  else if signed.1 then some (-(radixValue based.1 ds : Int))
  else some (radixValue based.1 ds)

/-- String conversion of a value that may be `undefined`. -/
def jsToString : Option String → String
  | some s => s
  | none => "undefined"

/-- UTF-16 code units of a string, the sequence JavaScript compares. -/
def utf16 (s : String) : List Nat :=
  s.toList.flatMap fun c =>
    if c.toNat < 65536 then [c.toNat]
    else [55296 + (c.toNat - 65536) / 1024, 56320 + (c.toNat - 65536) % 1024]

/-- Lexicographic `<` on code-unit sequences; a proper initial segment is
smaller. -/
def codeUnitsLt : List Nat → List Nat → Bool
  | _, [] => false
  | [], _ :: _ => true
  | a :: as, b :: bs => if a < b then true else if b < a then false else codeUnitsLt as bs

/-- The relational operator `a <= b` applied to two strings: no numeric
conversion takes place, the code units are compared lexicographically. -/
def jsStringLe (a b : String) : Bool := !codeUnitsLt (utf16 b) (utf16 a)

/-- Errors thrown by the platform. -/
inductive JsError where
  | typeError (message : String)
  | syntaxError (message : String)
deriving DecidableEq, Repr

/-! ## classList -/

/-- The method `classList.contains(token)`. -/
def classListContains (classList : List String) (token : String) : Bool :=
  classList.contains token

/-- The method `classList.add(token)`: appended when absent. -/
def classListAdd (classList : List String) (token : String) : List String :=
  if classList.contains token then classList else classList ++ [token]

/-- The method `classList.remove(token)`. -/
def classListRemove (classList : List String) (token : String) : List String :=
  classList.filter fun t => t != token

/-- The method `classList.toggle(token, force)`: adds when `force` is true,
removes when it is false. -/
def classListToggle (classList : List String) (token : String) (force : Bool) : List String :=
  if force then classListAdd classList token else classListRemove classList token

/-! ## movie.js : the server-synchronised rating control -/

/-- The element `.rating-container` nearest above a star. -/
structure RatingContainerRef where
  /-- identity of the container node -/
  node : Nat
  /-- `dataset.movieId`, absent when the attribute is -/
  movieId : Option String
deriving DecidableEq, Repr

/-- An element of class `rating-star`. -/
structure RatingStar where
  /-- `dataset.rating` -/
  dataRating : Option String
  /-- result of `closest('.rating-container')`, `none` for `null` -/
  closestContainer : Option RatingContainerRef
  classList : List String
deriving DecidableEq, Repr

/-- The page as movie.js sees it. -/
structure MoviePage where
  /-- `document.querySelectorAll('.rating-star')`, in document order -/
  ratingStars : List RatingStar
  /-- lines written by `console.error` -/
  console : List String
deriving DecidableEq, Repr

/-- A call of `fetch`. -/
structure Request where
  url : String
  method : String
  contentType : String
  body : String
deriving DecidableEq, Repr

/-- How the promise returned by `fetch` settles. -/
inductive FetchOutcome where
  | response (status : Nat)
  | rejected (error : String)
deriving DecidableEq, Repr

/-- The property `response.ok`: a status in 200..299. -/
def responseOk (status : Nat) : Bool := 200 ≤ status && status ≤ 299

/-- The text `JSON.stringify(\x7b rating \x7d)`; `NaN` serialises as `null`. -/
def ratingBody (rating : JsNum) : String :=
  match rating with
  | some k => "\x7b\"rating\":" ++ toString k ++ "\x7d"
  | none => "\x7b\"rating\":null\x7d"

/-- What the click handler holds while it awaits the server. -/
structure Pending where
  rating : JsNum
  request : Request
deriving DecidableEq, Repr

/-- The click handler of a star up to its `await`: reads the rating and the
movie id and issues the request.  Dereferencing a missing container throws
before the `try` block is entered. -/
def clickBegin (this : RatingStar) : Except JsError Pending :=
  let rating := parseInt (jsToString this.dataRating)
  match this.closestContainer with
  | none => .error (.typeError "Cannot read properties of null (reading dataset)")
  | some container =>
    .ok { rating := rating
          request := { url := "/movie/" ++ jsToString container.movieId ++ "/rate"
                       method := "POST"
                       contentType := "application/json"
                       body := ratingBody rating } }

/-- The loop `ratingStars.forEach((s, index) => s.classList.toggle('active', index < rating))`. -/
def updateStars (rating : JsNum) (ratingStars : List RatingStar) : List RatingStar :=
  ratingStars.mapIdx fun index s =>
    { s with classList := classListToggle s.classList "active" (jsLt (some (index : Int)) rating) }

/-- The click handler from its `await` on, run on the page as it is when the
answer arrives: the stars are updated when the response is ok, nothing is done
for another response, and a rejected fetch is caught and logged. -/
def clickSettle (pending : Pending) (answer : FetchOutcome) (p : MoviePage) : MoviePage :=
  match answer with
  | .response status =>
    if responseOk status then { p with ratingStars := updateStars pending.rating p.ratingStars }
    else p
  | .rejected error => { p with console := p.console ++ ["Error updating rating: " ++ error] }

/-- The whole click handler of the star at position `i` of `ratingStars`,
with the server answering `answer`.  A click on a position that holds no star
is no event. -/
def ratingStarClick (p : MoviePage) (i : Nat) (answer : FetchOutcome) : Except JsError MoviePage :=
  match p.ratingStars[i]? with
  | none => .ok p
  | some this =>
    match clickBegin this with
    | .error e => .error e
    | .ok pending => .ok (clickSettle pending answer p)

/-- Whether the star shows as active. -/
def RatingStar.active (s : RatingStar) : Bool := classListContains s.classList "active"

/-- Ordinal of a star of movie.js, from its `data-rating`. -/
def RatingStar.ordinal (s : RatingStar) : JsNum := parseInt (jsToString s.dataRating)

/-! ## script.js : the older form-backed widgets -/

/-- A state together with the error a handler threw, if it threw: what the
handler wrote before the throw stays written. -/
structure Outcome (σ : Type) where
  state : σ
  thrown : Option JsError
deriving DecidableEq, Repr

/-- A radio or checkbox of script.js together with the element after it. -/
structure FormInput where
  /-- the property `value` -/
  value : String
  checked : Bool
  /-- classList of `nextElementSibling`; `none` when `nextElementSibling` is `null` -/
  nextElementSibling : Option (List String)
deriving DecidableEq, Repr

/-- The page as script.js sees it. -/
structure ScriptPage where
  /-- `document.querySelectorAll('.star-rating input[type="radio"]')` -/
  stars : List FormInput
  /-- `document.querySelectorAll('.tags-container input[type="checkbox"]')` -/
  tags : List FormInput
deriving DecidableEq, Repr

/-- The function `highlightStars(rating)`: each radio whose value is `<=` the
rating, both being strings, gets `active` added to the class list of its next
element sibling, the others get it removed.  A radio without a next element
sibling makes the loop throw. -/
def highlightStars (rating : String) : List FormInput → Outcome (List FormInput)
  | [] => ⟨[], none⟩
  | star :: rest =>
    match star.nextElementSibling with
    | none => ⟨star :: rest, some (.typeError "Cannot read properties of null (reading classList)")⟩
    | some classList =>
      let classList1 :=
        if jsStringLe star.value rating then classListAdd classList "active"
        else classListRemove classList "active"
      let star1 : FormInput := { star with nextElementSibling := some classList1 }
      let r := highlightStars rating rest
      ⟨star1 :: r.state, r.thrown⟩

/-- The change listener of the radio at position `i`: `highlightStars(this.value)`. -/
def starChange (p : ScriptPage) (i : Nat) : Outcome ScriptPage :=
  match p.stars[i]? with
  | none => ⟨p, none⟩
  | some this =>
    let r := highlightStars this.value p.stars
    ⟨{ p with stars := r.state }, r.thrown⟩

/-- The change listener of the tag checkbox at position `i`. -/
def tagChange (p : ScriptPage) (i : Nat) : Outcome ScriptPage :=
  match p.tags[i]? with
  | none => ⟨p, none⟩
  | some this =>
    match this.nextElementSibling with
    | none => ⟨p, some (.typeError "Cannot read properties of null (reading classList)")⟩
    | some classList =>
      let classList1 :=
        if this.checked then classListAdd classList "active"
        else classListRemove classList "active"
      let this1 : FormInput := { this with nextElementSibling := some classList1 }
      ⟨{ p with tags := p.tags.set i this1 }, none⟩

/-- Whether the element after the input shows as active. -/
def FormInput.siblingActive (x : FormInput) : Bool :=
  match x.nextElementSibling with
  | some classList => classListContains classList "active"
  | none => false

/-! ## review.js : form-backed rating and tag containers -/

/-- An element below a widget container.  The elements of a container are
listed in document order; `parent` is the position of the parent element in
that list, `none` for a child of the container itself. -/
structure Elem where
  parent : Option Nat
  /-- element type, such as `input`, `span`, `label` -/
  localName : String
  /-- state of the `type` attribute of an input, in lower case -/
  type : String
  /-- the attribute `name` -/
  name : Option String
  /-- the attribute `value` -/
  valueAttr : Option String
  /-- the checkedness of an input -/
  checked : Bool
  /-- the attribute `data-star` (`dataset.star`) -/
  dataStar : Option String
  /-- the attribute `data-tag-label` -/
  dataTagLabel : Option String
  classList : List String
deriving DecidableEq, Repr

/-- The property `value` of a radio or checkbox: the attribute, `on` without one. -/
def Elem.value (e : Elem) : String := e.valueAttr.getD "on"

/-- The listeners review.js registers on a container. -/
inductive Listener where
  | ratingClick
  | ratingMouseover
  | ratingMouseleave
  | ratingChange
  | tagsChange
deriving DecidableEq, Repr

/-- Whether the listener is one of those registered by `initRating`. -/
def Listener.isRating : Listener → Bool
  | .tagsChange => false
  | _ => true

/-- A widget container of review.js: an element carrying
`data-rating-container`, `data-tags-container` or both, with the subtree
below it.  Containers are taken not to lie inside one another, and the star,
input and label elements of a container to lie below it.  The subtree is
static: the scripts add and remove no element, so the node list `stars` that
`initRating` takes at bind time is the list of `[data-star]` elements of the
container at any later time. -/
structure Container where
  /-- nodes above the container, for `root.querySelectorAll` -/
  ancestors : List Nat
  /-- presence of the attribute `data-rating-container` -/
  dataRatingContainer : Bool
  /-- presence of the attribute `data-tags-container` -/
  dataTagsContainer : Bool
  /-- the marker `__ratingBound` -/
  ratingBound : Bool
  /-- the marker `__tagsBound` -/
  tagsBound : Bool
  /-- event listeners in registration order -/
  listeners : List Listener
  /-- elements below the container in document order -/
  elems : List Elem
deriving DecidableEq, Repr

/-- Selector `[data-star]`. -/
def isStar (e : Elem) : Bool := e.dataStar.isSome

/-- Selector `input[name="rating"]`. -/
def isRatingInput (e : Elem) : Bool := e.localName == "input" && e.name == some "rating"

/-- Pseudo-class `:checked` on an input: a checked radio or checkbox. -/
def pseudoChecked (e : Elem) : Bool := (e.type == "radio" || e.type == "checkbox") && e.checked

/-- Selector `input[name="rating"]:checked`. -/
def isCheckedRatingInput (e : Elem) : Bool := isRatingInput e && pseudoChecked e

/-- Selector `input[name="rating"][value="val"]`, for a value free of quotes,
backslashes and line breaks, so that the interpolated text is that value. -/
def isRatingInputWithValue (val : String) (e : Elem) : Bool :=
  isRatingInput e && e.valueAttr == some val

/-- Selector `input[type="checkbox"][name="tags"]`. -/
def isTagCheckbox (e : Elem) : Bool :=
  e.localName == "input" && e.type == "checkbox" && e.name == some "tags"

/-- Input preprocessing of the CSS tokenizer: a carriage return, a form feed
and the pair carriage return, line feed each become one line feed, and a null
character becomes U+FFFD.  The state holds the output and whether the last
character read was a carriage return. -/
def cssPreprocess (cs : List Char) : List Char :=
  (cs.foldl (fun (st : List Char × Bool) c =>
      if c.toNat = 13 then (st.1 ++ [Char.ofNat 10], true)
      else if c.toNat = 10 then (if st.2 then st.1 else st.1 ++ [Char.ofNat 10], false)
      else if c.toNat = 12 then (st.1 ++ [Char.ofNat 10], false)
      else if c.toNat = 0 then (st.1 ++ [Char.ofNat 65533], false)
      else (st.1 ++ [c], false)) ([], false)).1

/-- The code point a hexadecimal CSS escape stands for: U+FFFD for zero, for a
surrogate and beyond U+10FFFF. -/
def cssEscapedChar (value : Nat) : Char :=
  if value = 0 || (55296 ≤ value && value ≤ 57343) || 1114111 < value then Char.ofNat 65533
  else Char.ofNat value

/-- Progress of the CSS tokenizer through a double-quoted string: inside the
string, right after a backslash, inside a hexadecimal escape, after the
closing quote (with the text that follows it), or stopped at a line break
(a bad string). -/
inductive StringScan where
  | inside (text : List Char)
  | escape (text : List Char)
  | hex (text : List Char) (digits value : Nat)
  | closed (text rest : List Char)
  | bad
deriving DecidableEq, Repr

/-- One character read inside the string: the double quote (34) closes it, a
line feed (10) makes it a bad string, a backslash (92) starts an escape. -/
def scanInside (text : List Char) (c : Char) : StringScan :=
  if c.toNat = 34 then .closed text []
  else if c.toNat = 10 then .bad
  else if c.toNat = 92 then .escape text
  else .inside (text ++ [c])

/-- One character read by the tokenizer.  A backslash before a line feed
continues the line; before a hexadecimal digit it starts an escape of up to
six digits, ended by one optional white space; before anything else it stands
for that character. -/
def scanStep (s : StringScan) (c : Char) : StringScan :=
  match s with
  | .inside text => scanInside text c
  | .escape text =>
    if c.toNat = 10 then .inside text
    else
      match digitValue c with
      | some d => .hex text 1 d
      | none => .inside (text ++ [c])
  | .hex text digits value =>
    match digitValue c with
    | some d =>
      if digits < 6 then .hex text (digits + 1) (16 * value + d)
      else scanInside (text ++ [cssEscapedChar value]) c
    | none =>
      if c.toNat = 32 || c.toNat = 9 || c.toNat = 10 then .inside (text ++ [cssEscapedChar value])
      else scanInside (text ++ [cssEscapedChar value]) c
  | .closed text rest => .closed text (rest ++ [c])
  | .bad => .bad

/-- What the selector text `[data-tag-label="` + value + `"]` compares the
attribute with, or the SyntaxError `querySelector` throws for it.  The value
is copied into the text unescaped, so the tokenizer reads it as the inside of
a CSS string: escapes are decoded, a line break ends in a SyntaxError, and a
double quote inside the value closes the string early.  After an early close
the text goes on behind the string, and it parses only when that rest is
selector text itself (a value written to inject a selector); the model
covers the values whose rest is none, as `classic""]` behind `"cult "`, and
reports their SyntaxError.  A value ending in a backslash escapes the closing
quote, and string and block are closed by the end of the text. -/
def attrSelectorValue (value : String) : Except JsError String :=
  match (cssPreprocess (value.toList ++ [Char.ofNat 34, Char.ofNat 93])).foldl scanStep
      (.inside []) with
  | .closed text rest =>
    if rest = [Char.ofNat 93] then .ok (String.mk text)
    else .error (.syntaxError "not a valid selector")
  | .inside text => .ok (String.mk text)
  | _ => .error (.syntaxError "not a valid selector")

/-- A value that reads as itself inside a CSS string: no double quote, no
backslash, no line feed, carriage return or form feed, no null character. -/
def cssSafe (value : String) : Bool :=
  value.toList.all fun c =>
    c.toNat != 34 && c.toNat != 92 && c.toNat != 10 && c.toNat != 13 && c.toNat != 12
      && c.toNat != 0

/-- Selector `[data-tag-label="..."]` whose quoted text the tokenizer has
read as `value`. -/
def isTagLabel (value : String) (e : Elem) : Bool := e.dataTagLabel == some value

/-- Position of the first element matching a selector: `querySelector`. -/
def querySelector (sel : Elem → Bool) : List Elem → Option Nat
  | [] => none
  | e :: es => if sel e then some 0 else (querySelector sel es).map (· + 1)

/-- Positions of all elements matching a selector, in document order:
`querySelectorAll`. -/
def querySelectorAll (sel : Elem → Bool) (elems : List Elem) : List Nat :=
  (List.range elems.length).filter fun i =>
    match elems[i]? with
    | some e => sel e
    | none => false

/-- Walk from position `i` up the parent chain to the first element matching
the selector. -/
def closestFrom (sel : Elem → Bool) (elems : List Elem) : Nat → Nat → Option Nat
  | 0, _ => none
  | fuel + 1, i =>
    match elems[i]? with
    | none => none
    | some e =>
      if sel e then some i
      else match e.parent with
        | none => none
        | some j => closestFrom sel elems fuel j

/-- The method `closest` within a container subtree, whose parent chains are
no longer than the subtree has elements.  An element found this way lies in
the container, so that the test `container.contains(star)` of the click
listener holds for it; no element at or above the container matches. -/
def closest (sel : Elem → Bool) (c : Container) (i : Nat) : Option Nat :=
  closestFrom sel c.elems c.elems.length i

/-- The function `sync(rating)` of `initRating`: every `[data-star]` element
of the container gets `is-selected` exactly when `Number(star.dataset.star) <= rating`. -/
def sync (rating : JsNum) (c : Container) : Container :=
  { c with elems := c.elems.map fun star =>
      match star.dataStar with
      | some d =>
        let v := Number d
        { star with classList := classListToggle star.classList "is-selected" (jsLe v rating) }
      | none => star }

/-- The function `getCurrentRating()` of `initRating`. -/
def getCurrentRating (c : Container) : JsNum :=
  match c.elems.find? isCheckedRatingInput with
  | some checked => Number checked.value
  | none => some 0

/-- Whether `b` is in the radio button group of `a`: both radios with the
same non-empty name (form owners are taken to be the same). -/
def sameRadioGroup (a b : Elem) : Bool :=
  a.localName == "input" && b.localName == "input" && a.type == "radio" && b.type == "radio"
    && a.name != some "" && a.name.isSome && a.name == b.name

/-- The assignment `input.checked = true`: the input becomes checked and, when
it is a radio, the other radios of its group become unchecked. -/
def setChecked (i : Nat) (c : Container) : Container :=
  match c.elems[i]? with
  | none => c
  | some input =>
    let others := c.elems.map fun e =>
      if sameRadioGroup input e then { e with checked := false } else e
    { c with elems := others.set i { input with checked := true } }

/-- The change listener of `initRating`. -/
def ratingChangeHandler (target : Nat) (c : Container) : Container :=
  match c.elems[target]? with
  | none => c
  | some t => if isRatingInput t then sync (getCurrentRating c) c else c

/-- The statement `if (label) label.classList.toggle('is-selected', checked)`
for the label the selector with quoted text `text` finds. -/
def toggleLabel (text : String) (checked : Bool) (c : Container) : Container :=
  match querySelector (isTagLabel text) c.elems with
  | none => c
  | some label =>
    match c.elems[label]? with
    | none => c
    | some l =>
      let l1 : Elem := { l with classList := classListToggle l.classList "is-selected" checked }
      { c with elems := c.elems.set label l1 }

/-- The function `syncOne(cb)` of `initTags`.  `querySelector` throws when
the selector text built from `cb.value` is no selector; nothing has been
written then. -/
def syncOne (cb : Nat) (c : Container) : Outcome Container :=
  match c.elems[cb]? with
  | none => ⟨c, none⟩
  | some box =>
    match attrSelectorValue box.value with
    | .error e => ⟨c, some e⟩
    | .ok text => ⟨toggleLabel text box.checked c, none⟩

/-- The loop `forEach(syncOne)` over the checkboxes at the given positions:
an exception leaves the loop, the checkboxes after it are not visited. -/
def syncEach : List Nat → Container → Outcome Container
  | [], c => ⟨c, none⟩
  | cb :: rest, c =>
    match (syncOne cb c).thrown with
    | some e => ⟨(syncOne cb c).state, some e⟩
    | none => syncEach rest (syncOne cb c).state

/-- The function `syncAll()` of `initTags`. -/
def syncAll (c : Container) : Outcome Container :=
  syncEach (querySelectorAll isTagCheckbox c.elems) c

/-- The change listener of `initTags`. -/
def tagsChangeHandler (target : Nat) (c : Container) : Outcome Container :=
  match c.elems[target]? with
  | none => ⟨c, none⟩
  | some t => if isTagCheckbox t then syncOne target c else ⟨c, none⟩

/-- One listener of the container receiving a change event. -/
def handleChange (l : Listener) (target : Nat) (c : Container) : Outcome Container :=
  match l with
  | .ratingChange => ⟨ratingChangeHandler target c, none⟩
  | .tagsChange => tagsChangeHandler target c
  | _ => ⟨c, none⟩

/-- A bubbling change event fired at the element `target`: the change
listeners of the container run in registration order.  An exception thrown by
a listener is reported by the platform and does not reach the code that fired
the event; the next listener runs on the state the throwing one left. -/
def dispatchChange (target : Nat) (c : Container) : Container :=
  c.listeners.foldl (fun acc l => (handleChange l target acc).state) c

/-- The click listener of `initRating`. -/
def ratingClickHandler (target : Nat) (c : Container) : Container :=
  match closest isStar c target with
  | none => c
  | some star =>
    match (c.elems[star]?).bind (·.dataStar) with
    | none => c
    | some val =>
      match querySelector (isRatingInputWithValue val) c.elems with
      | none => c
      | some input => dispatchChange input (setChecked input c)

/-- The mouseover listener of `initRating`. -/
def ratingMouseoverHandler (target : Nat) (c : Container) : Container :=
  match closest isStar c target with
  | none => c
  | some star =>
    match (c.elems[star]?).bind (·.dataStar) with
    | none => c
    | some d => sync (Number d) c

/-- The mouseleave listener of `initRating`. -/
def ratingMouseleaveHandler (c : Container) : Container := sync (getCurrentRating c) c

/-- Events a container receives; `target` is the position of the element the
event was fired at. -/
inductive Event where
  | click (target : Nat)
  | mouseover (target : Nat)
  | mouseleave
  | change (target : Nat)
deriving DecidableEq, Repr

/-- One listener of the container receiving an event. -/
def handle (l : Listener) (ev : Event) (c : Container) : Outcome Container :=
  match l, ev with
  | .ratingClick, .click target => ⟨ratingClickHandler target c, none⟩
  | .ratingMouseover, .mouseover target => ⟨ratingMouseoverHandler target c, none⟩
  | .ratingMouseleave, .mouseleave => ⟨ratingMouseleaveHandler c, none⟩
  | .ratingChange, .change target => ⟨ratingChangeHandler target c, none⟩
  | .tagsChange, .change target => tagsChangeHandler target c
  | _, _ => ⟨c, none⟩

/-- An event reaching the container: its listeners run in registration order,
each on the state the one before it left; the result is the state after the
last one. -/
def dispatch (ev : Event) (c : Container) : Container :=
  c.listeners.foldl (fun acc l => (handle l ev acc).state) c

/-- The exceptions the listeners of the container throw while the event is
dispatched, in order; the platform reports them and goes on with the next
listener. -/
def dispatchErrors (ev : Event) (c : Container) : List JsError :=
  (c.listeners.foldl (fun (st : Container × List JsError) l =>
      ((handle l ev st.1).state, st.2 ++ (handle l ev st.1).thrown.toList)) (c, [])).2

/-- The listeners `initRating` registers, in order. -/
def ratingListeners : List Listener :=
  [.ratingClick, .ratingMouseover, .ratingMouseleave, .ratingChange]

/-- The body of the `forEach` of `initRating` for one container. -/
def initRatingContainer (c : Container) : Container :=
  if c.ratingBound then c
  else
    let c1 : Container := { c with ratingBound := true, listeners := c.listeners ++ ratingListeners }
    sync (getCurrentRating c1) c1

/-- The body of the `forEach` of `initTags` for one container: the marker is
set and the listener registered before `syncAll()` runs, so both stay when
`syncAll()` throws. -/
def initTagsContainer (c : Container) : Outcome Container :=
  if c.tagsBound then ⟨c, none⟩
  else syncAll { c with tagsBound := true, listeners := c.listeners ++ [.tagsChange] }

/-- The containers of the page, in document order. -/
structure ReviewPage where
  containers : List Container
deriving DecidableEq, Repr

/-- Whether the container lies below `root`; `none` is the document. -/
def isUnder (root : Option Nat) (c : Container) : Bool :=
  match root with
  | none => true
  | some r => c.ancestors.contains r

/-- The function `initRating(root)`. -/
def initRating (root : Option Nat) (p : ReviewPage) : ReviewPage :=
  { containers := p.containers.map fun container =>
      if isUnder root container && container.dataRatingContainer then initRatingContainer container
      else container }

/-- The `forEach` of `initTags` over the containers in document order: an
exception leaves the loop, the containers after it are not visited. -/
def initTagsEach (root : Option Nat) : List Container → Outcome (List Container)
  | [] => ⟨[], none⟩
  | container :: rest =>
    if isUnder root container && container.dataTagsContainer then
      match (initTagsContainer container).thrown with
      | some e => ⟨(initTagsContainer container).state :: rest, some e⟩
      | none =>
        ⟨(initTagsContainer container).state :: (initTagsEach root rest).state,
          (initTagsEach root rest).thrown⟩
    else ⟨container :: (initTagsEach root rest).state, (initTagsEach root rest).thrown⟩

/-- The function `initTags(root)`. -/
def initTags (root : Option Nat) (p : ReviewPage) : Outcome ReviewPage :=
  ⟨{ containers := (initTagsEach root p.containers).state }, (initTagsEach root p.containers).thrown⟩

/-- The function `window.initReviewUI(root)`; `initRating` builds no selector
from a value of the page at bind time and does not throw. -/
def initReviewUI (root : Option Nat) (p : ReviewPage) : Outcome ReviewPage :=
  initTags root (initRating root p)

/-- A rating container bound once: it carries the marker and each listener of
`initRating` once. -/
def RatingBound (c : Container) : Prop :=
  c.ratingBound = true ∧ c.listeners.filter Listener.isRating = ratingListeners

/-- A tag container bound once: it carries the marker and the change listener
of `initTags` once. -/
def TagsBound (c : Container) : Prop :=
  c.tagsBound = true ∧ c.listeners.filter (fun l => !l.isRating) = [.tagsChange]

instance (c : Container) : Decidable (RatingBound c) := by
  unfold RatingBound; infer_instance

instance (c : Container) : Decidable (TagsBound c) := by
  unfold TagsBound; infer_instance

/-- Whether the element shows as selected. -/
def Elem.selected (e : Elem) : Bool := classListContains e.classList "is-selected"

/-- The element with its class list emptied: the part of an element that
`sync` and `syncOne` never write. -/
def Elem.stripped (e : Elem) : Elem := { e with classList := [] }

/-- The label `syncOne(cb)` writes: the first element the selector built
from the value of the checkbox at position `cb` finds; none when the selector
text is no selector. -/
def pairedLabel (c : Container) (cb : Nat) : Option Nat :=
  (c.elems[cb]?).bind fun box =>
    match attrSelectorValue box.value with
    | .ok text => querySelector (isTagLabel text) c.elems
    | .error _ => none

/-! ## Concrete pages -/

/-- The container of movie 42. -/
def movie42 : RatingContainerRef := ⟨0, some "42"⟩

/-- Five stars of one container, `data-rating` 1 to 5 in document order,
none active. -/
def fiveStars (container : RatingContainerRef) : List RatingStar :=
  ["1", "2", "3", "4", "5"].map fun r =>
    { dataRating := some r, closestContainer := some container, classList := ["rating-star"] }

/-- A page with the five-star control of movie 42. -/
def page42 : MoviePage := { ratingStars := fiveStars movie42, console := [] }

/-- A page listing two movies, each with its own five-star control. -/
def twoMoviesPage : MoviePage :=
  { ratingStars := fiveStars ⟨0, some "1"⟩ ++ fiveStars ⟨1, some "2"⟩, console := [] }

/-- The control of movie 42 with its stars in descending document order, as
laid out for right-to-left styling. -/
def reversedPage : MoviePage := { ratingStars := (fiveStars movie42).reverse, console := [] }

/-- A star that lies in no `.rating-container`. -/
def orphanStarPage : MoviePage :=
  { ratingStars := [{ dataRating := some "1", closestContainer := none, classList := ["rating-star"] }]
    console := [] }

/-- Radios of script.js with values 1 to `n`, each followed by a label. -/
def radios (n : Nat) : List FormInput :=
  (List.range n).map fun i =>
    { value := toString (i + 1), checked := false, nextElementSibling := some [] }

/-- Two radios of script.js, the second one without a following element, and
a tag checkbox without a following element. -/
def missingSiblingPage : ScriptPage :=
  { stars := [{ value := "1", checked := true, nextElementSibling := some [] },
              { value := "2", checked := false, nextElementSibling := none }]
    tags := [{ value := "drama", checked := true, nextElementSibling := none }] }

/-- A star of review.js carrying the ordinal text `d`, child of the container. -/
def starElem (d : String) : Elem :=
  { parent := none, localName := "span", type := "", name := none, valueAttr := none,
    checked := false, dataStar := some d, dataTagLabel := none, classList := ["star"] }

/-- The glyph inside the star at position `star`. -/
def glyphElem (star : Nat) : Elem :=
  { parent := some star, localName := "i", type := "", name := none, valueAttr := none,
    checked := false, dataStar := none, dataTagLabel := none, classList := [] }

/-- A radio named `rating`. -/
def ratingRadio (value : String) (checked : Bool) : Elem :=
  { parent := none, localName := "input", type := "radio", name := some "rating",
    valueAttr := some value, checked := checked, dataStar := none, dataTagLabel := none,
    classList := [] }

/-- A checkbox named `tags`. -/
def tagCheckbox (value : String) (checked : Bool) : Elem :=
  { parent := none, localName := "input", type := "checkbox", name := some "tags",
    valueAttr := some value, checked := checked, dataStar := none, dataTagLabel := none,
    classList := [] }

/-- The label of a tag, with the classes it is rendered with. -/
def tagLabel (value : String) (classList : List String) : Elem :=
  { parent := none, localName := "label", type := "", name := none, valueAttr := none,
    checked := false, dataStar := none, dataTagLabel := some value, classList := classList }

/-- A rating container with stars 1 to `n` and nothing else, not yet bound. -/
def starsOnly (n : Nat) : Container :=
  { ancestors := [], dataRatingContainer := true, dataTagsContainer := false,
    ratingBound := false, tagsBound := false, listeners := [],
    elems := (List.range n).map fun i => starElem (toString (i + 1)) }

/-- A five-star rating container as rendered for an edit form, not yet bound:
radios 1 to 5 with 3 checked (positions 0 to 4), stars 1 to 5 (positions 5 to
9), the glyph of each star (positions 10 to 14).  It lies below nodes 1 and 2. -/
def freshRating : Container :=
  { ancestors := [1, 2], dataRatingContainer := true, dataTagsContainer := false,
    ratingBound := false, tagsBound := false, listeners := [],
    elems := [ratingRadio "1" false, ratingRadio "2" false, ratingRadio "3" true,
              ratingRadio "4" false, ratingRadio "5" false,
              starElem "1", starElem "2", starElem "3", starElem "4", starElem "5",
              glyphElem 5, glyphElem 6, glyphElem 7, glyphElem 8, glyphElem 9] }

/-- The five-star container after its first binding. -/
def boundRating : Container := initRatingContainer freshRating

/-- A tag container as rendered for an edit form, not yet bound: `action`
checked, `drama` unchecked, the labels carrying stale classes.  It lies below
nodes 1 and 2. -/
def freshTags : Container :=
  { ancestors := [1, 2], dataRatingContainer := false, dataTagsContainer := true,
    ratingBound := false, tagsBound := false, listeners := [],
    elems := [tagCheckbox "action" true, tagLabel "action" ["tag"],
              tagCheckbox "drama" false, tagLabel "drama" ["tag", "is-selected"]] }

/-- The tag container after its first binding. -/
def boundTags : Container := (initTagsContainer freshTags).state

/-- A bound tag container whose only tag checkbox has no label. -/
def unlabelledTags : Container :=
  { ancestors := [], dataRatingContainer := false, dataTagsContainer := true,
    ratingBound := false, tagsBound := true, listeners := [.tagsChange],
    elems := [tagCheckbox "action" true] }

/-- A tag container as rendered for an edit form, not yet bound, whose tag
carries double quotes in its value: the checkbox is checked, the label has
the same text as `data-tag-label`.  It lies below nodes 1 and 2. -/
def quoteTags : Container :=
  { ancestors := [1, 2], dataRatingContainer := false, dataTagsContainer := true,
    ratingBound := false, tagsBound := false, listeners := [],
    elems := [tagCheckbox "cult \"classic\"" true, tagLabel "cult \"classic\"" ["tag"]] }

/-- A page with two tag containers not yet bound, the first one holding the
tag with double quotes. -/
def quotePage : ReviewPage := { containers := [quoteTags, freshTags] }

/-- A page after a swap below node 2: the rating container was bound before,
the tag container is new. -/
def swappedPage : ReviewPage := { containers := [boundRating, freshTags] }

/-! ## classList lemmas -/

theorem classListContains_add (classList : List String) (token : String) :
    classListContains (classListAdd classList token) token = true := by
  unfold classListContains classListAdd
  by_cases h : token ∈ classList
  · simp [h]
  · simp [h]

theorem classListContains_remove (classList : List String) (token : String) :
    classListContains (classListRemove classList token) token = false := by
  unfold classListContains classListRemove
  simp

theorem classListContains_toggle (classList : List String) (token : String) (force : Bool) :
    classListContains (classListToggle classList token force) token = force := by
  cases force
  · simpa [classListToggle] using classListContains_remove classList token
  · simpa [classListToggle] using classListContains_add classList token

theorem classListContains_toggle_other (classList : List String) (token other : String) (force : Bool)
    (h : other ≠ token) :
    classListContains (classListToggle classList token force) other
      = classListContains classList other := by
  cases force
  · simp [classListToggle, classListRemove, classListContains, h]
  · simp only [classListToggle, classListAdd, classListContains, if_true]
    by_cases hc : token ∈ classList
    · simp [hc]
    · simp [hc, h]

/-! ## movie.js -/

theorem updateStars_getElem? (rating : JsNum) (stars : List RatingStar) (j : Nat) :
    (updateStars rating stars)[j]? =
      (stars[j]?).map fun s =>
        { s with classList := classListToggle s.classList "active" (jsLt (some (j : Int)) rating) } := by
  simp [updateStars, List.getElem?_mapIdx]

theorem ratingStarClick_response (p : MoviePage) (i : Nat) (this : RatingStar)
    (container : RatingContainerRef) (status : Nat)
    (hthis : p.ratingStars[i]? = some this) (hcont : this.closestContainer = some container) :
    ratingStarClick p i (.response status) =
      .ok (if responseOk status = true
            then { p with ratingStars := updateStars this.ordinal p.ratingStars } else p) := by
  simp only [ratingStarClick, hthis, clickBegin, hcont, clickSettle, RatingStar.ordinal]

theorem ordinal_of_ascending (p : MoviePage)
    (hasc : p.ratingStars.map RatingStar.ordinal
      = (List.range p.ratingStars.length).map fun (j : Nat) => some ((j : Int) + 1))
    (j : Nat) (s : RatingStar) (hs : p.ratingStars[j]? = some s) :
    s.ordinal = some ((j : Int) + 1) := by
  have hj : j < p.ratingStars.length := (List.getElem?_eq_some.mp hs).1
  have h := congrArg (fun l => l[j]?) hasc
  simp only [List.getElem?_map, hs, Option.map_some', List.getElem?_range hj] at h
  exact Option.some.inj h

/-- C2 (amended): for every page, every star with an enclosing container and
every non-2xx status, the click issues the POST to `/movie/<id>/rate` with the
rating as body, and after the answer every star is exactly as before the
click: no class list has changed.  movie.js writes the active classes only
on a 2xx answer (the guard `if (response.ok)`); it applies no optimistic
state, so there is none to keep or to roll back. -/
theorem movie_click_non_ok_keeps_page (p : MoviePage) (i : Nat) (this : RatingStar)
    (container : RatingContainerRef) (status : Nat)
    (hthis : p.ratingStars[i]? = some this) (hcont : this.closestContainer = some container)
    (hstatus : responseOk status = false) :
    (∃ pending, clickBegin this = .ok pending ∧
        pending.request.url = "/movie/" ++ jsToString container.movieId ++ "/rate" ∧
        pending.request.method = "POST" ∧
        pending.request.body = ratingBody this.ordinal) ∧
      ∃ p1, ratingStarClick p i (.response status) = .ok p1 ∧
        p1.ratingStars = p.ratingStars := by
  refine ⟨?_, p, ?_, rfl⟩
  · simp [clickBegin, hcont, RatingStar.ordinal]
  · simp [ratingStarClick_response p i this container status hthis hcont, hstatus]

/-- C2 (amended), at the scenario of the specification: movie 42, five stars,
click on star 4, status 500. -/
theorem movie_click_non_ok_keeps_page_witness :
    (∃ pending, clickBegin ⟨some "4", some movie42, ["rating-star"]⟩ = .ok pending ∧
        pending.request.url = "/movie/" ++ jsToString movie42.movieId ++ "/rate" ∧
        pending.request.method = "POST" ∧
        pending.request.body
          = ratingBody (RatingStar.ordinal ⟨some "4", some movie42, ["rating-star"]⟩)) ∧
      ∃ p1, ratingStarClick page42 3 (.response 500) = .ok p1 ∧
        p1.ratingStars = page42.ratingStars :=
  movie_click_non_ok_keeps_page page42 3 ⟨some "4", some movie42, ["rating-star"]⟩ movie42 500
    (by decide) (by decide) (by decide)

/-- C2 (as stated) fails: movie 42, five stars none of them active, click on
star 4; the request is the POST of the scenario, the server answers 500, and
after the handler has settled no star is active and the console is empty. -/
theorem movie_click_500_not_optimistic :
    (clickBegin ⟨some "4", some movie42, ["rating-star"]⟩).toOption.map (·.request)
        = some ⟨"/movie/42/rate", "POST", "application/json", "\x7b\"rating\":4\x7d"⟩ ∧
      ∃ p1, ratingStarClick page42 3 (.response 500) = .ok p1 ∧
        (∀ s ∈ p1.ratingStars, s.active = false) ∧ p1.console = [] ∧
        ¬ ((∀ s ∈ p1.ratingStars, jsLe s.ordinal (some 4) = true → s.active = true)
            ∧ p1.console ≠ []) := by
  refine ⟨by decide, page42, rfl, by decide, by decide, by decide⟩

/-- C7: on a page with two controls, a click on star 3 of the second control
answered with 200 makes the first three stars of the first control active;
they belong to another container and were not active before. -/
theorem movie_click_writes_other_container :
    ∃ p1, ratingStarClick twoMoviesPage 7 (.response 200) = .ok p1 ∧
      ∃ (j : Nat) (before after clicked : RatingStar),
        twoMoviesPage.ratingStars[7]? = some clicked ∧
        twoMoviesPage.ratingStars[j]? = some before ∧ p1.ratingStars[j]? = some after ∧
        before.closestContainer ≠ clicked.closestContainer ∧
        before.active = false ∧ after.active = true := by
  refine ⟨_, rfl, 0, _, _, _, rfl, rfl, rfl, by decide, by decide, by decide⟩

/-- C8: a radio of script.js without a next element sibling makes the change
listener of the star radios throw a TypeError after it has already marked an
earlier label; a tag checkbox of script.js without a next element sibling
makes its change listener throw a TypeError; and a star of movie.js outside
every `.rating-container` makes the click handler throw a TypeError. -/
theorem missing_element_throws :
    (starChange missingSiblingPage 0).thrown
        = some (.typeError "Cannot read properties of null (reading classList)") ∧
      (starChange missingSiblingPage 0).state ≠ missingSiblingPage ∧
      (tagChange missingSiblingPage 0).thrown
        = some (.typeError "Cannot read properties of null (reading classList)") ∧
      ratingStarClick orphanStarPage 0 (.response 200)
        = .error (.typeError "Cannot read properties of null (reading dataset)") := by
  refine ⟨by decide, by decide, by decide, rfl⟩

/-- C9: with ten radios and the rating 9 selected, `highlightStars` of
script.js marks the label of the radio 10 active, because the strings `10`
and `9` are compared as text, while `sync` of review.js does not select the
star 10. -/
theorem highlightStars_differs_from_sync_at_ten :
    ((highlightStars "9" (radios 10)).state[9]?).map (fun r => (r.value, r.siblingActive))
        = some ("10", true) ∧
      (highlightStars "9" (radios 10)).thrown = none ∧
      ((sync (Number "9") (starsOnly 10)).elems[9]?).map (fun e => (e.dataStar, e.selected))
        = some (some "10", false) := by
  refine ⟨by decide, by decide, by decide⟩

/-- C10 (amended): on a page whose `.rating-star` elements carry the ordinals
1, 2, 3, ... in document order (one control, stars ascending), after a click
on a star answered with a 2xx status a star is active if and only if its
ordinal is at most the ordinal of the clicked star; the `data-rating` of no
star has changed. -/
theorem movie_click_ok_ascending (p : MoviePage) (i : Nat) (this : RatingStar)
    (container : RatingContainerRef) (status : Nat)
    (hthis : p.ratingStars[i]? = some this) (hcont : this.closestContainer = some container)
    (hok : responseOk status = true)
    (hasc : p.ratingStars.map RatingStar.ordinal
      = (List.range p.ratingStars.length).map fun (j : Nat) => some ((j : Int) + 1)) :
    ∃ p1, ratingStarClick p i (.response status) = .ok p1 ∧
      ∀ (j : Nat) (s : RatingStar), p.ratingStars[j]? = some s →
        ∃ s1 : RatingStar, p1.ratingStars[j]? = some s1 ∧ s1.dataRating = s.dataRating ∧
          (s1.active = true ↔ jsLe s1.ordinal this.ordinal = true) := by
  refine ⟨_, ratingStarClick_response p i this container status hthis hcont, ?_⟩
  intro j s hs
  simp only [hok, if_true, updateStars_getElem?, hs, Option.map_some']
  refine ⟨_, rfl, rfl, ?_⟩
  have h1 := ordinal_of_ascending p hasc j s hs
  have h2 := ordinal_of_ascending p hasc i this hthis
  simp only [RatingStar.ordinal] at h1 h2 ⊢
  simp only [RatingStar.active, classListContains_toggle, h1, h2, jsLt, jsLe, decide_eq_true_eq]
  omega

/-- C10 (amended), at the five-star control of movie 42, click on star 4,
status 200. -/
theorem movie_click_ok_ascending_witness :
    ∃ p1, ratingStarClick page42 3 (.response 200) = .ok p1 ∧
      ∀ (j : Nat) (s : RatingStar), page42.ratingStars[j]? = some s →
        ∃ s1 : RatingStar, p1.ratingStars[j]? = some s1 ∧ s1.dataRating = s.dataRating ∧
          (s1.active = true
            ↔ jsLe s1.ordinal (RatingStar.ordinal ⟨some "4", some movie42, ["rating-star"]⟩) = true) :=
  movie_click_ok_ascending page42 3 ⟨some "4", some movie42, ["rating-star"]⟩ movie42 200
    (by decide) (by decide) (by decide) (by decide)

/-- C10 (as stated) fails: with the five stars of one control in descending
document order, a click on the star with `data-rating` 2 answered with 200
makes the stars 5 and 4 active and leaves the stars 1 and 2 inactive. -/
theorem movie_click_ok_descending_order :
    ∃ p1, ratingStarClick reversedPage 3 (.response 200) = .ok p1 ∧
      p1.ratingStars.map (fun s => (s.dataRating, s.active))
        = [(some "5", true), (some "4", true), (some "3", false), (some "2", false),
           (some "1", false)] ∧
      ¬ (∀ s ∈ p1.ratingStars, s.active = true ↔ jsLe s.ordinal (some 2) = true) := by
  refine ⟨_, rfl, by decide, by decide⟩

/-! ## review.js : selectors -/

theorem querySelector_eq_some {sel : Elem → Bool} {l : List Elem} {i : Nat}
    (h : querySelector sel l = some i) :
    ∃ e, l[i]? = some e ∧ sel e = true ∧
      ∀ j, j < i → ∀ e1, l[j]? = some e1 → sel e1 = false := by
  induction l generalizing i with
  | nil => simp [querySelector] at h
  | cons a as ih =>
    unfold querySelector at h
    by_cases ha : sel a = true
    · simp only [ha, if_true, Option.some.injEq] at h
      subst h
      exact ⟨a, by simp, ha, by intro j hj; omega⟩
    · simp only [ha, Bool.false_eq_true, if_false, Option.map_eq_some'] at h
      obtain ⟨k, hk, rfl⟩ := h
      obtain ⟨e, he, hse, hlt⟩ := ih hk
      refine ⟨e, by simpa using he, hse, ?_⟩
      intro j hj e1 he1
      cases j with
      | zero =>
        simp only [List.getElem?_cons_zero, Option.some.injEq] at he1
        subst he1
        simpa using ha
      | succ j =>
        simp only [List.getElem?_cons_succ] at he1
        exact hlt j (by omega) e1 he1

theorem querySelector_eq_none {sel : Elem → Bool} {l : List Elem}
    (h : querySelector sel l = none) : ∀ e ∈ l, sel e = false := by
  induction l with
  | nil => simp
  | cons a as ih =>
    unfold querySelector at h
    by_cases ha : sel a = true
    · simp [ha] at h
    · simp only [ha, Bool.false_eq_true, if_false, Option.map_eq_none'] at h
      intro e he
      rcases List.mem_cons.mp he with rfl | he
      · simpa using ha
      · exact ih h e he

theorem querySelector_of_mem {sel : Elem → Bool} {l : List Elem} {e : Elem}
    (he : e ∈ l) (hs : sel e = true) : ∃ i, querySelector sel l = some i := by
  cases hq : querySelector sel l with
  | some i => exact ⟨i, rfl⟩
  | none =>
    have := querySelector_eq_none hq e he
    simp [hs] at this

theorem querySelector_congr {sel : Elem → Bool} {l l1 : List Elem}
    (h : l1.map sel = l.map sel) : querySelector sel l1 = querySelector sel l := by
  induction l generalizing l1 with
  | nil =>
    cases l1 with
    | nil => rfl
    | cons b bs => simp at h
  | cons a as ih =>
    cases l1 with
    | nil => simp at h
    | cons b bs =>
      simp only [List.map_cons, List.cons.injEq] at h
      simp only [querySelector, h.1, ih h.2]

theorem find?_eq_of_unique {p : Elem → Bool} {l : List Elem} {i : Nat} {a : Elem}
    (hi : l[i]? = some a) (hp : p a = true)
    (huniq : ∀ j b, l[j]? = some b → p b = true → j = i) : l.find? p = some a := by
  induction l generalizing i with
  | nil => simp at hi
  | cons x xs ih =>
    cases i with
    | zero =>
      simp only [List.getElem?_cons_zero, Option.some.injEq] at hi
      subst hi
      simp [List.find?_cons, hp]
    | succ i =>
      simp only [List.getElem?_cons_succ] at hi
      have hx : p x = false := by
        by_contra hx
        have := huniq 0 x (by simp) (by simpa using hx)
        omega
      simp only [List.find?_cons, hx]
      refine ih hi ?_
      intro j b hj hb
      have := huniq (j + 1) b (by simpa using hj) hb
      omega

theorem mem_querySelectorAll {sel : Elem → Bool} {l : List Elem} {i : Nat} :
    i ∈ querySelectorAll sel l ↔ ∃ e, l[i]? = some e ∧ sel e = true := by
  unfold querySelectorAll
  simp only [List.mem_filter, List.mem_range]
  constructor
  · rintro ⟨hi, h⟩
    rw [List.getElem?_eq_getElem hi] at h
    exact ⟨l[i], List.getElem?_eq_getElem hi, h⟩
  · rintro ⟨e, he, hs⟩
    refine ⟨(List.getElem?_eq_some.mp he).1, ?_⟩
    simp [he, hs]

/-! ## review.js : dispatch -/

theorem foldl_filter_of_inv {σ : Type} (I : σ → Prop) (P : Listener → Bool)
    (f : Listener → σ → σ)
    (hid : ∀ l, P l = false → ∀ c, I c → f l c = c)
    (hinv : ∀ l c, I c → I (f l c)) (ls : List Listener) (c : σ) (hc : I c) :
    ls.foldl (fun acc l => f l acc) c = (ls.filter P).foldl (fun acc l => f l acc) c := by
  induction ls generalizing c with
  | nil => rfl
  | cons l ls ih =>
    by_cases hl : P l = true
    · simp only [List.foldl_cons, List.filter_cons, hl, if_true]
      exact ih _ (hinv l c hc)
    · have hl1 : P l = false := by simpa using hl
      simp only [List.foldl_cons, List.filter_cons, hl1, Bool.false_eq_true, if_false,
        hid l hl1 c hc]
      exact ih c hc

theorem filter_eq_of_ratingBound (c : Container) (hb : RatingBound c) (x : Listener)
    (hx : x.isRating = true) :
    c.listeners.filter (fun l => l == x) = ratingListeners.filter (fun l => l == x) := by
  have h : c.listeners.filter (fun l => l == x)
      = (c.listeners.filter Listener.isRating).filter (fun l => l == x) := by
    rw [List.filter_filter]
    congr 1
    funext l
    by_cases hl : l = x
    · subst hl; simp [hx]
    · simp [hl]
  rw [h, hb.2]

theorem handle_change_eq (l : Listener) (target : Nat) (c : Container) :
    handle l (.change target) c = handleChange l target c := by
  cases l <;> rfl

theorem dispatch_click_of_bound (c : Container) (hb : RatingBound c) (target : Nat) :
    dispatch (.click target) c = ratingClickHandler target c := by
  unfold dispatch
  rw [foldl_filter_of_inv (fun _ => True) (fun l => l == .ratingClick)
    (fun l acc => (handle l (.click target) acc).state) ?_ (fun _ _ _ => trivial) c.listeners c trivial]
  · rw [filter_eq_of_ratingBound c hb .ratingClick rfl]
    rfl
  · intro l hl acc _
    cases l <;> first | rfl | simp at hl

theorem dispatch_mouseover_of_bound (c : Container) (hb : RatingBound c) (target : Nat) :
    dispatch (.mouseover target) c = ratingMouseoverHandler target c := by
  unfold dispatch
  rw [foldl_filter_of_inv (fun _ => True) (fun l => l == .ratingMouseover)
    (fun l acc => (handle l (.mouseover target) acc).state) ?_ (fun _ _ _ => trivial) c.listeners c trivial]
  · rw [filter_eq_of_ratingBound c hb .ratingMouseover rfl]
    rfl
  · intro l hl acc _
    cases l <;> first | rfl | simp at hl

theorem dispatch_mouseleave_of_bound (c : Container) (hb : RatingBound c) :
    dispatch .mouseleave c = ratingMouseleaveHandler c := by
  unfold dispatch
  rw [foldl_filter_of_inv (fun _ => True) (fun l => l == .ratingMouseleave)
    (fun l acc => (handle l .mouseleave acc).state) ?_ (fun _ _ _ => trivial) c.listeners c trivial]
  · rw [filter_eq_of_ratingBound c hb .ratingMouseleave rfl]
    rfl
  · intro l hl acc _
    cases l <;> first | rfl | simp at hl

/-! ## review.js : sync -/

theorem sync_elem (rating : JsNum) (c : Container) (j : Nat) :
    (sync rating c).elems[j]? = (c.elems[j]?).map fun star =>
      match star.dataStar with
      | some d =>
        { star with classList := classListToggle star.classList "is-selected" (jsLe (Number d) rating) }
      | none => star := by
  simp [sync, List.getElem?_map]

theorem sync_ratingBound (rating : JsNum) (c : Container) (hb : RatingBound c) :
    RatingBound (sync rating c) := hb

theorem getCurrentRating_sync (rating : JsNum) (c : Container) :
    getCurrentRating (sync rating c) = getCurrentRating c := by
  unfold getCurrentRating sync
  simp only [List.find?_map]
  have hcomp : (isCheckedRatingInput ∘ fun star : Elem =>
      match star.dataStar with
      | some d =>
        { star with classList := classListToggle star.classList "is-selected" (jsLe (Number d) rating) }
      | none => star) = isCheckedRatingInput := by
    funext e
    cases hd : e.dataStar <;> simp [Function.comp, hd, isCheckedRatingInput, isRatingInput, pseudoChecked]
  rw [hcomp]
  cases hf : c.elems.find? isCheckedRatingInput with
  | none => rfl
  | some e =>
    cases hd : e.dataStar <;> simp [hd, Elem.value]

theorem sync_elem_spec (rating : JsNum) (c : Container) (j : Nat) (e : Elem)
    (he : c.elems[j]? = some e) :
    ∃ e1, (sync rating c).elems[j]? = some e1 ∧
      { e1 with classList := e.classList } = e ∧
      (∀ token, token ≠ "is-selected" →
        classListContains e1.classList token = classListContains e.classList token) ∧
      (e.dataStar = none → e1 = e) ∧
      ∀ d, e.dataStar = some d → e1.selected = jsLe (Number d) rating := by
  simp only [sync_elem, he, Option.map_some']
  cases hd : e.dataStar with
  | none =>
    simp only [hd]
    exact ⟨e, rfl, rfl, fun _ _ => rfl, fun _ => rfl, fun d h => by simp at h⟩
  | some d =>
    simp only [hd]
    refine ⟨_, rfl, ?_, ?_, ?_, ?_⟩
    · cases e
      simp only at hd
      subst hd
      rfl
    · intro token ht
      simp only [classListContains_toggle_other _ _ _ _ ht]
    · intro h; simp at h
    · intro d1 h1
      simp only [Option.some.injEq] at h1
      subst h1
      simp only [Elem.selected, classListContains_toggle]

theorem dataStar_of_frame {e e1 : Elem} (h : { e1 with classList := e.classList } = e) :
    e1.dataStar = e.dataStar := by
  have := congrArg Elem.dataStar h
  simpa using this

/-- C3: for every bound rating container, whatever element the pointer moved
over (a star, a descendant of a star or anything else), after the mouseover
and the following mouseleave of the container every star has `is-selected`
exactly when `Number` of its `data-star` is `<=` the committed rating (the
value of the checked rating input, 0 without one).  Nothing else has changed:
an element that is no star is as before, and a star differs from before in
the token `is-selected` of its class list at most. -/
theorem hover_then_leave_shows_committed (c : Container) (target : Nat) (hb : RatingBound c) :
    ∀ (j : Nat) (e : Elem), c.elems[j]? = some e →
      ∃ e1, (dispatch .mouseleave (dispatch (.mouseover target) c)).elems[j]? = some e1 ∧
        { e1 with classList := e.classList } = e ∧
        (∀ token, token ≠ "is-selected" →
          classListContains e1.classList token = classListContains e.classList token) ∧
        (e.dataStar = none → e1 = e) ∧
        ∀ d, e.dataStar = some d →
          (e1.selected = true ↔ jsLe (Number d) (getCurrentRating c) = true) := by
  intro j e he
  rw [dispatch_mouseover_of_bound c hb target]
  have hover : ratingMouseoverHandler target c = c ∨
      ∃ r, ratingMouseoverHandler target c = sync r c := by
    unfold ratingMouseoverHandler
    split
    · exact Or.inl rfl
    · split
      · exact Or.inl rfl
      · exact Or.inr ⟨_, rfl⟩
  rcases hover with h | ⟨r, h⟩
  · rw [h, dispatch_mouseleave_of_bound c hb]
    obtain ⟨e1, h1, hf, ht, hn, hs⟩ := sync_elem_spec (getCurrentRating c) c j e he
    exact ⟨e1, h1, hf, ht, hn, fun d hd => by rw [hs d hd]⟩
  · rw [h, dispatch_mouseleave_of_bound _ (sync_ratingBound r c hb)]
    unfold ratingMouseleaveHandler
    rw [getCurrentRating_sync]
    obtain ⟨e1, h1, hf1, ht1, hn1, _⟩ := sync_elem_spec r c j e he
    obtain ⟨e2, h2, hf2, ht2, hn2, hs2⟩ := sync_elem_spec (getCurrentRating c) (sync r c) j e1 h1
    have hds : e1.dataStar = e.dataStar := dataStar_of_frame hf1
    refine ⟨e2, h2, ?_, ?_, ?_, ?_⟩
    · rw [← hf1, ← hf2]
    · intro token htok
      rw [ht2 token htok, ht1 token htok]
    · intro hnone
      rw [hn2 (by rw [hds, hnone]), hn1 hnone]
    · intro d hd
      rw [hs2 d (by rw [hds, hd])]

/-- C3, at the bound five-star container with 3 committed: the pointer moves
over the glyph of star 5 and then leaves. -/
theorem hover_then_leave_shows_committed_witness :
    RatingBound boundRating ∧
    ∀ (j : Nat) (e : Elem), boundRating.elems[j]? = some e →
      ∃ e1, (dispatch .mouseleave (dispatch (.mouseover 14) boundRating)).elems[j]? = some e1 ∧
        { e1 with classList := e.classList } = e ∧
        (∀ token, token ≠ "is-selected" →
          classListContains e1.classList token = classListContains e.classList token) ∧
        (e.dataStar = none → e1 = e) ∧
        ∀ d, e.dataStar = some d →
          (e1.selected = true ↔ jsLe (Number d) (getCurrentRating boundRating) = true) :=
  ⟨by decide, hover_then_leave_shows_committed boundRating 14 (by decide)⟩


/-! ## review.js : selector text -/

theorem cssPreprocess_fold_safe (l : List Char) (out : List Char)
    (h : ∀ c ∈ l, c.toNat ≠ 13 ∧ c.toNat ≠ 10 ∧ c.toNat ≠ 12 ∧ c.toNat ≠ 0) :
    l.foldl (fun (st : List Char × Bool) c =>
      if c.toNat = 13 then (st.1 ++ [Char.ofNat 10], true)
      else if c.toNat = 10 then (if st.2 then st.1 else st.1 ++ [Char.ofNat 10], false)
      else if c.toNat = 12 then (st.1 ++ [Char.ofNat 10], false)
      else if c.toNat = 0 then (st.1 ++ [Char.ofNat 65533], false)
      else (st.1 ++ [c], false)) (out, false) = (out ++ l, false) := by
  induction l generalizing out with
  | nil => simp
  | cons c cs ih =>
    obtain ⟨h13, h10, h12, h0⟩ := h c (List.mem_cons_self _ _)
    simp only [List.foldl_cons, h13, h10, h12, h0, if_false]
    rw [ih (out ++ [c]) (fun d hd => h d (List.mem_cons_of_mem _ hd))]
    simp

theorem cssPreprocess_safe (l : List Char)
    (h : ∀ c ∈ l, c.toNat ≠ 13 ∧ c.toNat ≠ 10 ∧ c.toNat ≠ 12 ∧ c.toNat ≠ 0) :
    cssPreprocess l = l := by
  unfold cssPreprocess
  rw [cssPreprocess_fold_safe l [] h]
  simp

theorem scan_safe (l : List Char) (text : List Char)
    (h : ∀ c ∈ l, c.toNat ≠ 34 ∧ c.toNat ≠ 10 ∧ c.toNat ≠ 92) :
    l.foldl scanStep (.inside text) = .inside (text ++ l) := by
  induction l generalizing text with
  | nil => simp
  | cons c cs ih =>
    obtain ⟨h34, h10, h92⟩ := h c (List.mem_cons_self _ _)
    simp only [List.foldl_cons, scanStep, scanInside, h34, h10, h92, if_false]
    rw [ih (text ++ [c]) (fun d hd => h d (List.mem_cons_of_mem _ hd))]
    simp

theorem cssSafe_char {value : String} (h : cssSafe value = true) :
    ∀ c ∈ value.toList, c.toNat ≠ 34 ∧ c.toNat ≠ 92 ∧ c.toNat ≠ 10 ∧ c.toNat ≠ 13 ∧
      c.toNat ≠ 12 ∧ c.toNat ≠ 0 := by
  intro c hc
  unfold cssSafe at h
  have := (List.all_eq_true.mp h) c hc
  simp only [Bool.and_eq_true, bne_iff_ne, ne_eq] at this
  exact ⟨this.1.1.1.1.1, this.1.1.1.1.2, this.1.1.1.2, this.1.1.2, this.1.2, this.2⟩

theorem attrSelectorValue_of_safe (value : String) (h : cssSafe value = true) :
    attrSelectorValue value = .ok value := by
  have hs := cssSafe_char h
  have hpre : cssPreprocess (value.toList ++ [Char.ofNat 34, Char.ofNat 93])
      = value.toList ++ [Char.ofNat 34, Char.ofNat 93] := by
    apply cssPreprocess_safe
    intro c hc
    rcases List.mem_append.mp hc with hc | hc
    · obtain ⟨_, _, h10, h13, h12, h0⟩ := hs c hc
      exact ⟨h13, h10, h12, h0⟩
    · simp only [List.mem_cons, List.mem_singleton, List.not_mem_nil, or_false] at hc
      rcases hc with rfl | rfl <;> decide
  have hscan : (value.toList ++ [Char.ofNat 34, Char.ofNat 93]).foldl scanStep (.inside [])
      = .closed value.toList [Char.ofNat 93] := by
    rw [List.foldl_append, scan_safe value.toList []
      (fun c hc => ⟨(hs c hc).1, (hs c hc).2.2.1, (hs c hc).2.1⟩)]
    rfl
  unfold attrSelectorValue
  rw [hpre, hscan]
  rfl

/-! ## review.js : tags -/

theorem toggleLabel_spec (text : String) (checked : Bool) (c : Container) :
    (∀ label, querySelector (isTagLabel text) c.elems = some label →
      ∃ l, c.elems[label]? = some l ∧ l.dataTagLabel = some text ∧
        (toggleLabel text checked c).elems[label]? = some
          { l with classList := classListToggle l.classList "is-selected" checked }) ∧
    (∀ j, querySelector (isTagLabel text) c.elems ≠ some j →
      (toggleLabel text checked c).elems[j]? = c.elems[j]?) := by
  unfold toggleLabel
  cases hq : querySelector (isTagLabel text) c.elems with
  | none => exact ⟨fun label h => by simp at h, fun j _ => rfl⟩
  | some label =>
    obtain ⟨l, hl, hsel, _⟩ := querySelector_eq_some hq
    have hlt : label < c.elems.length := (List.getElem?_eq_some.mp hl).1
    simp only [hl]
    constructor
    · intro label1 h1
      simp only [Option.some.injEq] at h1
      subst h1
      refine ⟨l, hl, ?_, ?_⟩
      · simpa [isTagLabel] using hsel
      · simp [List.getElem?_set, hlt]
    · intro j hj
      have hne : label ≠ j := fun h => hj (by rw [h])
      simp [List.getElem?_set, hne]

theorem toggleLabel_fields (text : String) (checked : Bool) (c : Container) :
    (toggleLabel text checked c).ancestors = c.ancestors ∧
    (toggleLabel text checked c).dataRatingContainer = c.dataRatingContainer ∧
    (toggleLabel text checked c).dataTagsContainer = c.dataTagsContainer ∧
    (toggleLabel text checked c).ratingBound = c.ratingBound ∧
    (toggleLabel text checked c).tagsBound = c.tagsBound ∧
    (toggleLabel text checked c).listeners = c.listeners := by
  unfold toggleLabel
  split
  · exact ⟨rfl, rfl, rfl, rfl, rfl, rfl⟩
  · split <;> exact ⟨rfl, rfl, rfl, rfl, rfl, rfl⟩

theorem syncOne_cases (c : Container) (cb : Nat) :
    syncOne cb c = ⟨c, none⟩ ∨
    (∃ e, (syncOne cb c) = ⟨c, some e⟩ ∧ pairedLabel c cb = none) ∨
    ∃ box text, c.elems[cb]? = some box ∧ attrSelectorValue box.value = .ok text ∧
      syncOne cb c = ⟨toggleLabel text box.checked c, none⟩ := by
  cases hcb : c.elems[cb]? with
  | none => exact Or.inl (by simp [syncOne, hcb])
  | some box =>
    cases hv : attrSelectorValue box.value with
    | error e =>
      exact Or.inr (Or.inl ⟨e, by simp [syncOne, hcb, hv], by simp [pairedLabel, hcb, hv]⟩)
    | ok text => exact Or.inr (Or.inr ⟨box, text, rfl, hv, by simp [syncOne, hcb, hv]⟩)

theorem syncOne_of_safe (c : Container) (cb : Nat) (box : Elem)
    (hcb : c.elems[cb]? = some box) (hsafe : cssSafe box.value = true) :
    syncOne cb c = ⟨toggleLabel box.value box.checked c, none⟩ := by
  simp only [syncOne, hcb, attrSelectorValue_of_safe box.value hsafe]

theorem syncOne_fields (c : Container) (cb : Nat) :
    (syncOne cb c).state.ancestors = c.ancestors ∧
    (syncOne cb c).state.dataRatingContainer = c.dataRatingContainer ∧
    (syncOne cb c).state.dataTagsContainer = c.dataTagsContainer ∧
    (syncOne cb c).state.ratingBound = c.ratingBound ∧
    (syncOne cb c).state.tagsBound = c.tagsBound ∧
    (syncOne cb c).state.listeners = c.listeners := by
  rcases syncOne_cases c cb with h | ⟨e, h, _⟩ | ⟨box, text, _, _, h⟩
  · rw [h]; exact ⟨rfl, rfl, rfl, rfl, rfl, rfl⟩
  · rw [h]; exact ⟨rfl, rfl, rfl, rfl, rfl, rfl⟩
  · rw [h]; exact toggleLabel_fields text box.checked c

theorem syncOne_frame (c : Container) (cb j : Nat) (e : Elem) (he : c.elems[j]? = some e) :
    ∃ e1, (syncOne cb c).state.elems[j]? = some e1 ∧
      { e1 with classList := e.classList } = e := by
  rcases syncOne_cases c cb with h | ⟨e0, h, _⟩ | ⟨box, text, _, _, h⟩
  · rw [h]; exact ⟨e, he, rfl⟩
  · rw [h]; exact ⟨e, he, rfl⟩
  · rw [h]
    obtain ⟨h1, h2⟩ := toggleLabel_spec text box.checked c
    by_cases hq : querySelector (isTagLabel text) c.elems = some j
    · obtain ⟨l, hl, _, hl1⟩ := h1 j hq
      rw [he] at hl
      simp only [Option.some.injEq] at hl
      subst hl
      exact ⟨_, hl1, rfl⟩
    · exact ⟨e, by rw [h2 j hq, he], rfl⟩

theorem isRatingInput_of_frame {e e1 : Elem} (h : { e1 with classList := e.classList } = e) :
    isRatingInput e1 = isRatingInput e := by
  rw [← h]
  rfl

theorem isTagCheckbox_of_frame {e e1 : Elem} (h : { e1 with classList := e.classList } = e) :
    isTagCheckbox e1 = isTagCheckbox e := by
  rw [← h]
  rfl

theorem isRatingInput_of_isTagCheckbox {e : Elem} (h : isTagCheckbox e = true) :
    isRatingInput e = false := by
  simp only [isTagCheckbox, Bool.and_eq_true, beq_iff_eq] at h
  simp [isRatingInput, h.2]

theorem handle_change_of_tag (l : Listener) (t : Nat) (acc : Container) (e : Elem)
    (he : acc.elems[t]? = some e) (hr : isRatingInput e = false) (hl : (!l.isRating) = false) :
    handle l (.change t) acc = ⟨acc, none⟩ := by
  cases l with
  | ratingChange => simp [handle, ratingChangeHandler, he, hr]
  | tagsChange => simp [Listener.isRating] at hl
  | ratingClick => rfl
  | ratingMouseover => rfl
  | ratingMouseleave => rfl

theorem handle_change_keeps_target (l : Listener) (t : Nat) (acc : Container) (e : Elem)
    (he : acc.elems[t]? = some e) (hr : isRatingInput e = false) :
    ∃ e1, (handle l (.change t) acc).state.elems[t]? = some e1 ∧ isRatingInput e1 = false := by
  cases l with
  | ratingChange => simp [handle, ratingChangeHandler, he, hr]
  | tagsChange =>
    simp only [handle, tagsChangeHandler, he]
    split
    · obtain ⟨e1, he1, hf⟩ := syncOne_frame acc t t e he
      exact ⟨e1, he1, by rw [isRatingInput_of_frame hf, hr]⟩
    · exact ⟨e, he, hr⟩
  | ratingClick => exact ⟨e, he, hr⟩
  | ratingMouseover => exact ⟨e, he, hr⟩
  | ratingMouseleave => exact ⟨e, he, hr⟩

theorem dispatch_change_tag (c : Container) (hb : TagsBound c) (t : Nat) (box : Elem)
    (ht : c.elems[t]? = some box) (hbox : isTagCheckbox box = true) :
    dispatch (.change t) c = (syncOne t c).state ∧
    dispatchErrors (.change t) c = (syncOne t c).thrown.toList := by
  constructor
  · unfold dispatch
    rw [foldl_filter_of_inv
      (fun acc : Container => ∃ e, acc.elems[t]? = some e ∧ isRatingInput e = false)
      (fun l => !l.isRating) (fun l acc => (handle l (.change t) acc).state) ?_ ?_ c.listeners c
      ⟨box, ht, isRatingInput_of_isTagCheckbox hbox⟩]
    · rw [hb.2]
      simp [handle, tagsChangeHandler, ht, hbox]
    · intro l hl acc hacc
      obtain ⟨e, he, hr⟩ := hacc
      simp only [handle_change_of_tag l t acc e he hr hl]
    · intro l acc hacc
      obtain ⟨e, he, hr⟩ := hacc
      exact handle_change_keeps_target l t acc e he hr
  · unfold dispatchErrors
    rw [foldl_filter_of_inv
      (fun st : Container × List JsError =>
        ∃ e, st.1.elems[t]? = some e ∧ isRatingInput e = false)
      (fun l => !l.isRating)
      (fun l (st : Container × List JsError) =>
        ((handle l (.change t) st.1).state, st.2 ++ (handle l (.change t) st.1).thrown.toList))
      ?_ ?_ c.listeners (c, []) ⟨box, ht, isRatingInput_of_isTagCheckbox hbox⟩]
    · rw [hb.2]
      simp [handle, tagsChangeHandler, ht, hbox]
    · intro l hl st hst
      obtain ⟨e, he, hr⟩ := hst
      simp [handle_change_of_tag l t st.1 e he hr hl]
    · intro l st hst
      obtain ⟨e, he, hr⟩ := hst
      exact handle_change_keeps_target l t st.1 e he hr

/-- C5 (amended): for every bound tag container and every tag checkbox `t` in
it whose value holds no double quote, backslash, line break or null
character, a change event on `t` throws nothing and gives the label paired
with `t` (the first element whose `data-tag-label` is the value of `t`) the
class `is-selected` exactly when `t` is checked, touching nothing else of that
label, and leaves every other element of the container as it was, in
particular the label of every other tag. -/
theorem tag_change_updates_paired_label_only (c : Container) (t : Nat) (box : Elem)
    (hb : TagsBound c) (ht : c.elems[t]? = some box) (hbox : isTagCheckbox box = true)
    (hsafe : cssSafe box.value = true) :
    dispatchErrors (.change t) c = [] ∧
    (∀ label, querySelector (isTagLabel box.value) c.elems = some label →
      ∃ l l1, c.elems[label]? = some l ∧ l.dataTagLabel = some box.value ∧
        (dispatch (.change t) c).elems[label]? = some l1 ∧
        l1.selected = box.checked ∧
        { l1 with classList := l.classList } = l ∧
        ∀ token, token ≠ "is-selected" →
          classListContains l1.classList token = classListContains l.classList token) ∧
    (∀ j, querySelector (isTagLabel box.value) c.elems ≠ some j →
      (dispatch (.change t) c).elems[j]? = c.elems[j]?) ∧
    (∀ (j : Nat) (other : Elem), c.elems[j]? = some other → other.dataTagLabel ≠ some box.value →
      (dispatch (.change t) c).elems[j]? = some other) := by
  obtain ⟨hd, he⟩ := dispatch_change_tag c hb t box ht hbox
  rw [hd, he, syncOne_of_safe c t box ht hsafe]
  obtain ⟨h1, h2⟩ := toggleLabel_spec box.value box.checked c
  refine ⟨rfl, ?_, h2, ?_⟩
  · intro label hq
    obtain ⟨l, hl, hdl, hl1⟩ := h1 label hq
    refine ⟨l, _, hl, hdl, hl1, ?_, rfl, ?_⟩
    · simp only [Elem.selected, classListContains_toggle]
    · intro token htok
      simp only [classListContains_toggle_other _ _ _ _ htok]
  · intro j other hj hne
    rw [h2 j ?_, hj]
    intro hq
    obtain ⟨l, hl, hdl, _⟩ := h1 j hq
    rw [hj] at hl
    simp only [Option.some.injEq] at hl
    subst hl
    exact hne hdl

/-- C5 (amended), at the bound tag container of the edit form: the checkbox
`drama` (position 2) has just been ticked and fires its change event. -/
theorem tag_change_updates_paired_label_only_witness :
    TagsBound (setChecked 2 boundTags) ∧
    dispatchErrors (.change 2) (setChecked 2 boundTags) = [] ∧
    (∀ label, querySelector (isTagLabel (tagCheckbox "drama" true).value)
        (setChecked 2 boundTags).elems = some label →
      ∃ l l1, (setChecked 2 boundTags).elems[label]? = some l ∧
        l.dataTagLabel = some (tagCheckbox "drama" true).value ∧
        (dispatch (.change 2) (setChecked 2 boundTags)).elems[label]? = some l1 ∧
        l1.selected = (tagCheckbox "drama" true).checked ∧
        { l1 with classList := l.classList } = l ∧
        ∀ token, token ≠ "is-selected" →
          classListContains l1.classList token = classListContains l.classList token) ∧
    (∀ j, querySelector (isTagLabel (tagCheckbox "drama" true).value)
        (setChecked 2 boundTags).elems ≠ some j →
      (dispatch (.change 2) (setChecked 2 boundTags)).elems[j]?
        = (setChecked 2 boundTags).elems[j]?) ∧
    (∀ (j : Nat) (other : Elem), (setChecked 2 boundTags).elems[j]? = some other →
      other.dataTagLabel ≠ some (tagCheckbox "drama" true).value →
      (dispatch (.change 2) (setChecked 2 boundTags)).elems[j]? = some other) :=
  ⟨by decide, tag_change_updates_paired_label_only (setChecked 2 boundTags) 2
    (tagCheckbox "drama" true) (by decide) (by decide) (by decide) (by decide)⟩

/-- C5 (as stated) fails: in the bound tag container whose tag value carries
double quotes the checkbox (position 0) is checked and the label (position 1)
has that value as `data-tag-label`; on the change event of the checkbox the
listener throws a SyntaxError and the label stays without `is-selected`. -/
theorem tag_change_quoted_value_throws :
    TagsBound (initTagsContainer quoteTags).state ∧
    ∃ box l l1, (initTagsContainer quoteTags).state.elems[0]? = some box ∧
      isTagCheckbox box = true ∧ box.checked = true ∧
      (initTagsContainer quoteTags).state.elems[1]? = some l ∧
      l.dataTagLabel = some box.value ∧
      dispatchErrors (.change 0) (initTagsContainer quoteTags).state
        = [.syntaxError "not a valid selector"] ∧
      (dispatch (.change 0) (initTagsContainer quoteTags).state).elems[1]? = some l1 ∧
      l1.selected = false ∧ ¬ (l1.selected = box.checked) := by
  refine ⟨by decide, _, _, _, rfl, by decide, by decide, rfl, by decide, by decide, rfl,
    by decide, by decide⟩

/-! ## review.js : syncAll -/

theorem toggleLabel_stripped (text : String) (checked : Bool) (c : Container) :
    (toggleLabel text checked c).elems.map Elem.stripped = c.elems.map Elem.stripped := by
  unfold toggleLabel
  split
  · rfl
  · rename_i label _
    split
    · rfl
    · rename_i l hl
      apply List.ext_getElem?
      intro j
      simp only [List.getElem?_map, List.getElem?_set]
      by_cases hj : label = j
      · subst hj
        have hlt : label < c.elems.length := (List.getElem?_eq_some.mp hl).1
        simp [hlt, hl, Elem.stripped]
      · simp [hj]

theorem syncOne_stripped (c : Container) (cb : Nat) :
    (syncOne cb c).state.elems.map Elem.stripped = c.elems.map Elem.stripped := by
  rcases syncOne_cases c cb with h | ⟨e, h, _⟩ | ⟨box, text, _, _, h⟩
  · rw [h]
  · rw [h]
  · rw [h]; exact toggleLabel_stripped text box.checked c

theorem stripped_getElem? {l l1 : List Elem} (h : l1.map Elem.stripped = l.map Elem.stripped)
    (j : Nat) : (l1[j]?).map Elem.stripped = (l[j]?).map Elem.stripped := by
  have := congrArg (fun x => x[j]?) h
  simpa [List.getElem?_map] using this

theorem querySelector_tagLabel_stripped {l l1 : List Elem}
    (h : l1.map Elem.stripped = l.map Elem.stripped) (v : String) :
    querySelector (isTagLabel v) l1 = querySelector (isTagLabel v) l := by
  apply querySelector_congr
  have h1 : ∀ x : List Elem, x.map (isTagLabel v) = (x.map Elem.stripped).map (isTagLabel v) := by
    intro x
    simp only [List.map_map]
    rfl
  rw [h1 l1, h1 l, h]

theorem stripped_elem {c acc : Container}
    (h : acc.elems.map Elem.stripped = c.elems.map Elem.stripped) (i : Nat) (b : Elem)
    (hb : c.elems[i]? = some b) :
    ∃ a, acc.elems[i]? = some a ∧ a.stripped = b.stripped := by
  have hi := stripped_getElem? h i
  rw [hb] at hi
  cases ha : acc.elems[i]? with
  | none => rw [ha] at hi; simp at hi
  | some a =>
    rw [ha] at hi
    simp only [Option.map_some', Option.some.injEq] at hi
    exact ⟨a, rfl, hi⟩

theorem value_of_stripped {a b : Elem} (h : a.stripped = b.stripped) : a.value = b.value := by
  have := congrArg Elem.value h
  simpa [Elem.value, Elem.stripped] using this

theorem checked_of_stripped {a b : Elem} (h : a.stripped = b.stripped) :
    a.checked = b.checked := by
  have := congrArg Elem.checked h
  simpa [Elem.stripped] using this

theorem pairedLabel_stripped {c acc : Container}
    (h : acc.elems.map Elem.stripped = c.elems.map Elem.stripped) (i : Nat) :
    pairedLabel acc i = pairedLabel c i := by
  unfold pairedLabel
  cases hc : c.elems[i]? with
  | none =>
    have hi := stripped_getElem? h i
    rw [hc] at hi
    cases ha : acc.elems[i]? with
    | none => rfl
    | some a => rw [ha] at hi; simp at hi
  | some b =>
    obtain ⟨a, ha, hab⟩ := stripped_elem h i b hc
    simp only [ha, Option.some_bind, value_of_stripped hab]
    cases attrSelectorValue b.value with
    | error e => rfl
    | ok text => exact querySelector_tagLabel_stripped h text

theorem syncOne_other (c : Container) (cb label : Nat) (h : pairedLabel c cb ≠ some label) :
    (syncOne cb c).state.elems[label]? = c.elems[label]? := by
  rcases syncOne_cases c cb with h1 | ⟨e, h1, _⟩ | ⟨box, text, hcb, hv, h1⟩
  · rw [h1]
  · rw [h1]
  · rw [h1]
    refine (toggleLabel_spec text box.checked c).2 label ?_
    simpa [pairedLabel, hcb, hv] using h

theorem foldl_syncOne_stripped (cbs : List Nat) (acc : Container) :
    (cbs.foldl (fun acc cb => (syncOne cb acc).state) acc).elems.map Elem.stripped
      = acc.elems.map Elem.stripped := by
  induction cbs generalizing acc with
  | nil => rfl
  | cons i rest ih =>
    simp only [List.foldl_cons]
    rw [ih, syncOne_stripped]

theorem foldl_syncOne_other (c : Container) (label : Nat) (cbs : List Nat) (acc : Container)
    (hacc : acc.elems.map Elem.stripped = c.elems.map Elem.stripped)
    (h : ∀ i ∈ cbs, pairedLabel c i ≠ some label) :
    (cbs.foldl (fun acc cb => (syncOne cb acc).state) acc).elems[label]? = acc.elems[label]? := by
  induction cbs generalizing acc with
  | nil => rfl
  | cons i rest ih =>
    simp only [List.foldl_cons]
    rw [ih (syncOne i acc).state (by rw [syncOne_stripped, hacc])
      (fun k hk => h k (List.mem_cons_of_mem _ hk))]
    apply syncOne_other
    rw [pairedLabel_stripped hacc]
    exact h i (List.mem_cons_self _ _)

theorem foldl_syncOne_paired (c : Container) (cb label : Nat) (box : Elem)
    (hcb : c.elems[cb]? = some box) (hlabel : pairedLabel c cb = some label)
    (cbs : List Nat) (acc : Container)
    (hacc : acc.elems.map Elem.stripped = c.elems.map Elem.stripped)
    (hmem : cb ∈ cbs)
    (hown : ∀ i ∈ cbs, i ≠ cb → pairedLabel c i ≠ some label) :
    ∃ l1, (cbs.foldl (fun acc cb => (syncOne cb acc).state) acc).elems[label]? = some l1 ∧
      l1.selected = box.checked := by
  induction cbs generalizing acc with
  | nil => simp at hmem
  | cons i rest ih =>
    simp only [List.foldl_cons]
    have hacc1 : (syncOne i acc).state.elems.map Elem.stripped = c.elems.map Elem.stripped := by
      rw [syncOne_stripped, hacc]
    have hrest : ∀ k ∈ rest, k ≠ cb → pairedLabel c k ≠ some label :=
      fun k hk => hown k (List.mem_cons_of_mem _ hk)
    by_cases hin : cb ∈ rest
    · exact ih (syncOne i acc).state hacc1 hin hrest
    · have hi : i = cb := by
        rcases List.mem_cons.mp hmem with h | h
        · exact h.symm
        · exact absurd h hin
      subst hi
      rw [foldl_syncOne_other c label rest (syncOne i acc).state hacc1
        (fun k hk => hrest k hk (fun hk1 => hin (hk1 ▸ hk)))]
      obtain ⟨a, ha, hab⟩ := stripped_elem hacc i box hcb
      have hpl : pairedLabel acc i = some label := by rw [pairedLabel_stripped hacc, hlabel]
      simp only [pairedLabel, ha, Option.some_bind] at hpl
      cases hv : attrSelectorValue a.value with
      | error e => rw [hv] at hpl; simp at hpl
      | ok text =>
        rw [hv] at hpl
        simp only at hpl
        have hs : syncOne i acc = ⟨toggleLabel text a.checked acc, none⟩ := by
          simp [syncOne, ha, hv]
        rw [hs]
        obtain ⟨l, _, _, hl1⟩ := (toggleLabel_spec text a.checked acc).1 label hpl
        refine ⟨_, hl1, ?_⟩
        simp only [Elem.selected, classListContains_toggle, checked_of_stripped hab]

theorem foldl_syncOne_fields (cbs : List Nat) (acc : Container) :
    (cbs.foldl (fun acc cb => (syncOne cb acc).state) acc).ancestors = acc.ancestors ∧
    (cbs.foldl (fun acc cb => (syncOne cb acc).state) acc).dataRatingContainer
      = acc.dataRatingContainer ∧
    (cbs.foldl (fun acc cb => (syncOne cb acc).state) acc).dataTagsContainer
      = acc.dataTagsContainer ∧
    (cbs.foldl (fun acc cb => (syncOne cb acc).state) acc).ratingBound = acc.ratingBound ∧
    (cbs.foldl (fun acc cb => (syncOne cb acc).state) acc).tagsBound = acc.tagsBound ∧
    (cbs.foldl (fun acc cb => (syncOne cb acc).state) acc).listeners = acc.listeners := by
  induction cbs generalizing acc with
  | nil => exact ⟨rfl, rfl, rfl, rfl, rfl, rfl⟩
  | cons i rest ih =>
    simp only [List.foldl_cons]
    obtain ⟨h1, h2, h3, h4, h5, h6⟩ := ih (syncOne i acc).state
    obtain ⟨g1, g2, g3, g4, g5, g6⟩ := syncOne_fields acc i
    exact ⟨h1.trans g1, h2.trans g2, h3.trans g3, h4.trans g4, h5.trans g5, h6.trans g6⟩

theorem syncEach_state_prefix (cbs : List Nat) (acc : Container) :
    ∃ visited, visited <+: cbs ∧
      (syncEach cbs acc).state = visited.foldl (fun acc cb => (syncOne cb acc).state) acc := by
  induction cbs generalizing acc with
  | nil => exact ⟨[], List.prefix_refl _, rfl⟩
  | cons i rest ih =>
    unfold syncEach
    cases ht : (syncOne i acc).thrown with
    | some e => exact ⟨[i], by simp, rfl⟩
    | none =>
      obtain ⟨visited, hp, hs⟩ := ih (syncOne i acc).state
      exact ⟨i :: visited, by simpa using hp, by simpa using hs⟩

theorem syncEach_of_safe (c : Container) (cbs : List Nat) (acc : Container)
    (hacc : acc.elems.map Elem.stripped = c.elems.map Elem.stripped)
    (hsafe : ∀ i ∈ cbs, ∀ b ∈ c.elems[i]?, cssSafe b.value = true) :
    syncEach cbs acc = ⟨cbs.foldl (fun acc cb => (syncOne cb acc).state) acc, none⟩ := by
  induction cbs generalizing acc with
  | nil => rfl
  | cons i rest ih =>
    have hno : (syncOne i acc).thrown = none := by
      cases ha : acc.elems[i]? with
      | none => simp [syncOne, ha]
      | some a =>
        have hi := stripped_getElem? hacc i
        rw [ha] at hi
        cases hc : c.elems[i]? with
        | none => rw [hc] at hi; simp at hi
        | some b =>
          rw [hc] at hi
          simp only [Option.map_some', Option.some.injEq] at hi
          have hb : cssSafe b.value = true := hsafe i (List.mem_cons_self _ _) b hc
          rw [← value_of_stripped hi] at hb
          rw [syncOne_of_safe acc i a ha hb]
    unfold syncEach
    simp only [hno, List.foldl_cons]
    exact ih (syncOne i acc).state (by rw [syncOne_stripped, hacc])
      (fun k hk => hsafe k (List.mem_cons_of_mem _ hk))

theorem initTagsContainer_fields (c : Container) :
    (initTagsContainer c).state.ancestors = c.ancestors ∧
    (initTagsContainer c).state.dataRatingContainer = c.dataRatingContainer ∧
    (initTagsContainer c).state.dataTagsContainer = c.dataTagsContainer ∧
    (initTagsContainer c).state.ratingBound = c.ratingBound ∧
    (initTagsContainer c).state.tagsBound = true ∧
    (initTagsContainer c).state.listeners
      = c.listeners ++ (if c.tagsBound = true then [] else [.tagsChange]) := by
  unfold initTagsContainer
  by_cases h : c.tagsBound = true
  · simp [h]
  · simp only [h, Bool.false_eq_true, if_false]
    unfold syncAll
    obtain ⟨visited, _, hs⟩ := syncEach_state_prefix
      (querySelectorAll isTagCheckbox
        ({ c with tagsBound := true, listeners := c.listeners ++ [.tagsChange] } : Container).elems)
      { c with tagsBound := true, listeners := c.listeners ++ [.tagsChange] }
    rw [hs]
    exact foldl_syncOne_fields _ _

theorem initTagsContainer_of_safe (c : Container) (hunbound : c.tagsBound = false)
    (hsafe : ∀ i ∈ querySelectorAll isTagCheckbox c.elems, ∀ b ∈ c.elems[i]?,
      cssSafe b.value = true) :
    initTagsContainer c =
      ⟨(querySelectorAll isTagCheckbox c.elems).foldl (fun acc cb => (syncOne cb acc).state)
          { c with tagsBound := true, listeners := c.listeners ++ [.tagsChange] }, none⟩ := by
  unfold initTagsContainer syncAll
  simp only [hunbound, Bool.false_eq_true, if_false]
  exact syncEach_of_safe c _ _ rfl hsafe

/-- C6 (amended): immediately after `initTags` has bound a previously unbound
tag container none of whose tag checkbox values holds a double quote,
backslash, line break or null character, for every tag checkbox named `tags`
that alone carries its value (tags and labels mirror 1:1) the paired label has
the class `is-selected` if and only if the checkbox is checked, whatever
classes the labels carried before the bind; nothing was thrown, the checkbox
keeps its value and its checkedness, and the container carries the marker and
one more change listener. -/
theorem bind_tags_shows_checked (c : Container) (cb label : Nat) (box : Elem)
    (hunbound : c.tagsBound = false)
    (hcb : c.elems[cb]? = some box) (hbox : isTagCheckbox box = true)
    (hlabel : querySelector (isTagLabel box.value) c.elems = some label)
    (hown : ∀ j ∈ querySelectorAll isTagCheckbox c.elems, j ≠ cb →
      (c.elems[j]?).map Elem.value ≠ some box.value)
    (hsafe : ∀ j ∈ querySelectorAll isTagCheckbox c.elems, ∀ b ∈ c.elems[j]?,
      cssSafe b.value = true) :
    (initTagsContainer c).thrown = none ∧
    (initTagsContainer c).state.tagsBound = true ∧
    (initTagsContainer c).state.listeners = c.listeners ++ [.tagsChange] ∧
    ∃ box1 l1, (initTagsContainer c).state.elems[cb]? = some box1 ∧
      box1.stripped = box.stripped ∧
      (initTagsContainer c).state.elems[label]? = some l1 ∧
      l1.dataTagLabel = some box.value ∧
      (l1.selected = true ↔ box.checked = true) := by
  have hinit := initTagsContainer_of_safe c hunbound hsafe
  have hfields := initTagsContainer_fields c
  refine ⟨by rw [hinit], hfields.2.2.2.2.1, ?_, ?_⟩
  · rw [hfields.2.2.2.2.2]
    simp [hunbound]
  have helems : (initTagsContainer c).state.elems
      = ((querySelectorAll isTagCheckbox c.elems).foldl (fun acc cb => (syncOne cb acc).state)
          { c with tagsBound := true, listeners := c.listeners ++ [.tagsChange] }).elems := by
    rw [hinit]
  have hstr : (initTagsContainer c).state.elems.map Elem.stripped
      = c.elems.map Elem.stripped := by
    rw [helems, foldl_syncOne_stripped]
  have hmem : cb ∈ querySelectorAll isTagCheckbox c.elems :=
    mem_querySelectorAll.mpr ⟨box, hcb, hbox⟩
  have hboxsafe : cssSafe box.value = true := hsafe cb hmem box hcb
  have hpl : pairedLabel c cb = some label := by
    simp [pairedLabel, hcb, attrSelectorValue_of_safe box.value hboxsafe, hlabel]
  have hothers : ∀ i ∈ querySelectorAll isTagCheckbox c.elems, i ≠ cb →
      pairedLabel c i ≠ some label := by
    intro i hi hne hpi
    obtain ⟨e, he, _⟩ := mem_querySelectorAll.mp hi
    have hesafe : cssSafe e.value = true := hsafe i hi e he
    simp only [pairedLabel, he, Option.some_bind,
      attrSelectorValue_of_safe e.value hesafe] at hpi
    obtain ⟨l, hl, hsel, _⟩ := querySelector_eq_some hpi
    obtain ⟨l2, hl2, hsel2, _⟩ := querySelector_eq_some hlabel
    rw [hl] at hl2
    simp only [Option.some.injEq] at hl2
    subst hl2
    simp only [isTagLabel, beq_iff_eq] at hsel hsel2
    apply hown i hi hne
    rw [he, Option.map_some']
    rw [hsel] at hsel2
    exact hsel2
  obtain ⟨l1, hl1, hsel1⟩ := foldl_syncOne_paired c cb label box hcb hpl
    (querySelectorAll isTagCheckbox c.elems)
    { c with tagsBound := true, listeners := c.listeners ++ [.tagsChange] } rfl hmem hothers
  rw [← helems] at hl1
  obtain ⟨box1, hbx, hb1⟩ := stripped_elem hstr cb box hcb
  obtain ⟨l, hl, hsel, _⟩ := querySelector_eq_some hlabel
  obtain ⟨l1', hl1', hlb1⟩ := stripped_elem hstr label l hl
  rw [hl1] at hl1'
  simp only [Option.some.injEq] at hl1'
  subst hl1'
  refine ⟨box1, l1, hbx, hb1, hl1, ?_, by rw [hsel1]⟩
  have := congrArg Elem.dataTagLabel hlb1
  simp only [Elem.stripped] at this
  rw [this]
  simpa [isTagLabel] using hsel

/-- C6 (amended), at the example of the specification: `action` checked and
`drama` unchecked, the label of `drama` rendered with a stale `is-selected`;
after the bind the label of `action` (position 1) is selected. -/
theorem bind_tags_shows_checked_witness :
    (initTagsContainer freshTags).thrown = none ∧
    (initTagsContainer freshTags).state.tagsBound = true ∧
    (initTagsContainer freshTags).state.listeners = freshTags.listeners ++ [.tagsChange] ∧
    ∃ box1 l1, (initTagsContainer freshTags).state.elems[0]? = some box1 ∧
      box1.stripped = (tagCheckbox "action" true).stripped ∧
      (initTagsContainer freshTags).state.elems[1]? = some l1 ∧
      l1.dataTagLabel = some (tagCheckbox "action" true).value ∧
      (l1.selected = true ↔ (tagCheckbox "action" true).checked = true) :=
  bind_tags_shows_checked freshTags 0 1 (tagCheckbox "action" true)
    (by decide) (by decide) (by decide) (by decide) (by decide) (by decide)

/-- C6 (as stated) fails: one tag checkbox, checked, whose value carries
double quotes, and its label with that value as `data-tag-label`; the bind
throws a SyntaxError out of `syncAll()` and leaves the label without
`is-selected` although the checkbox is checked. -/
theorem bind_tags_quoted_value_throws :
    ∃ box l l1, quoteTags.elems[0]? = some box ∧ isTagCheckbox box = true ∧
      quoteTags.elems[1]? = some l ∧ l.dataTagLabel = some box.value ∧
      (initTagsContainer quoteTags).thrown = some (.syntaxError "not a valid selector") ∧
      (initTagsContainer quoteTags).state.elems[1]? = some l1 ∧
      box.checked = true ∧ l1.selected = false ∧
      ¬ (l1.selected = true ↔ box.checked = true) := by
  refine ⟨_, _, _, rfl, by decide, rfl, by decide, by decide, rfl, by decide, by decide,
    by decide⟩

/-! ## review.js : click -/

theorem setChecked_elem (c : Container) (input : Nat) (inp : Elem)
    (hinp : c.elems[input]? = some inp) (j : Nat) :
    (setChecked input c).elems[j]? =
      if input = j then some { inp with checked := true }
      else (c.elems[j]?).map fun e =>
        if sameRadioGroup inp e then { e with checked := false } else e := by
  have hlt : input < c.elems.length := (List.getElem?_eq_some.mp hinp).1
  simp only [setChecked, hinp, List.getElem?_set, List.length_map, hlt, if_true,
    List.getElem?_map]

theorem setChecked_listeners (c : Container) (input : Nat) :
    (setChecked input c).listeners = c.listeners := by
  unfold setChecked
  split <;> rfl

theorem sameRadioGroup_of_rating {a b : Elem} (ha : isRatingInput a = true)
    (hb : isRatingInput b = true) (hta : a.type = "radio") (htb : b.type = "radio") :
    sameRadioGroup a b = true := by
  simp only [isRatingInput, Bool.and_eq_true, beq_iff_eq] at ha hb
  simp [sameRadioGroup, ha.1, ha.2, hb.1, hb.2, hta, htb]

theorem isTagCheckbox_of_radio {e : Elem} (h : e.type = "radio") : isTagCheckbox e = false := by
  simp [isTagCheckbox, h]

theorem dispatchChange_rating (c : Container) (hb : RatingBound c) (input : Nat) (x : Elem)
    (hx : c.elems[input]? = some x) (hr : isRatingInput x = true)
    (ht : isTagCheckbox x = false) :
    dispatchChange input c = sync (getCurrentRating c) c := by
  unfold dispatchChange
  rw [foldl_filter_of_inv
    (fun acc : Container =>
      ∃ e, acc.elems[input]? = some e ∧ isRatingInput e = true ∧ isTagCheckbox e = false)
    (fun l => l == .ratingChange) (fun l acc => (handleChange l input acc).state) ?_ ?_
    c.listeners c ⟨x, hx, hr, ht⟩]
  · rw [filter_eq_of_ratingBound c hb .ratingChange rfl]
    simp [ratingListeners, handleChange, ratingChangeHandler, hx, hr]
  · intro l hl acc hacc
    obtain ⟨e, he, _, hte⟩ := hacc
    cases l with
    | ratingChange => simp at hl
    | tagsChange => simp [handleChange, tagsChangeHandler, he, hte]
    | ratingClick => rfl
    | ratingMouseover => rfl
    | ratingMouseleave => rfl
  · intro l acc hacc
    obtain ⟨e, he, hre, hte⟩ := hacc
    cases l with
    | ratingChange =>
      simp only [handleChange, ratingChangeHandler, he, hre, if_true]
      obtain ⟨e1, he1, hf, _⟩ := sync_elem_spec (getCurrentRating acc) acc input e he
      exact ⟨e1, he1, by rw [isRatingInput_of_frame hf, hre],
        by rw [isTagCheckbox_of_frame hf, hte]⟩
    | tagsChange =>
      refine ⟨e, ?_, hre, hte⟩
      simp [handleChange, tagsChangeHandler, he, hte]
    | ratingClick => exact ⟨e, he, hre, hte⟩
    | ratingMouseover => exact ⟨e, he, hre, hte⟩
    | ratingMouseleave => exact ⟨e, he, hre, hte⟩

theorem getCurrentRating_setChecked (c : Container) (input : Nat) (inp : Elem) (d : String)
    (hradio : ∀ e ∈ c.elems, isRatingInput e = true → e.type = "radio")
    (hinp : c.elems[input]? = some inp) (hsel : isRatingInputWithValue d inp = true) :
    getCurrentRating (setChecked input c) = Number d := by
  simp only [isRatingInputWithValue, Bool.and_eq_true, beq_iff_eq] at hsel
  have hmem : inp ∈ c.elems := List.getElem?_mem hinp
  have htype : inp.type = "radio" := hradio inp hmem hsel.1
  have hfind : (setChecked input c).elems.find? isCheckedRatingInput
      = some { inp with checked := true } := by
    apply find?_eq_of_unique (i := input)
    · rw [setChecked_elem c input inp hinp]
      simp
    · have h1 : isRatingInput { inp with checked := true } = true := hsel.1
      have h2 : pseudoChecked { inp with checked := true } = true := by
        simp [pseudoChecked, htype]
      simp only [isCheckedRatingInput, h1, h2, Bool.and_self]
    · intro j b hj hb
      rw [setChecked_elem c input inp hinp] at hj
      by_contra hne
      have hne1 : ¬ input = j := fun h => hne h.symm
      simp only [hne1, if_false, Option.map_eq_some'] at hj
      obtain ⟨e, he, hbe⟩ := hj
      simp only [isCheckedRatingInput, Bool.and_eq_true] at hb
      by_cases hg : sameRadioGroup inp e = true
      · simp only [hg, if_true] at hbe
        subst hbe
        simp [pseudoChecked] at hb
      · simp only [hg, Bool.false_eq_true, if_false] at hbe
        subst hbe
        exact hg (sameRadioGroup_of_rating hsel.1 hb.1 htype
          (hradio e (List.getElem?_mem he) hb.1))
  simp only [getCurrentRating, hfind, Elem.value, hsel.2, Option.getD_some]

/-- C1: for every bound rating container whose stars carry ordinals in 1..N,
whose inputs named `rating` are radios, and which has such a radio with the
ordinal text of each star as value: after a click whose target is a star or a
descendant of a star (the nearest `[data-star]` above the target is the star
`s` with ordinal `v`), every star has `is-selected` if and only if its ordinal
is at most `v`, and among the inputs named `rating` the checked one is the
first radio whose value is the ordinal text of `s`.  Apart from the class
lists of the stars and the checkedness of the radios nothing has changed. -/
theorem click_star_selects_up_to (c : Container) (N target star : Nat) (s : Elem)
    (d : String) (v : Nat)
    (hb : RatingBound c)
    (hstars : ∀ e ∈ c.elems, ∀ d1 ∈ e.dataStar,
      ∃ k ∈ List.range (N + 1), 1 ≤ k ∧ Number d1 = some (k : Int))
    (hradio : ∀ e ∈ c.elems, isRatingInput e = true → e.type = "radio")
    (hbacking : ∀ e ∈ c.elems, ∀ d1 ∈ e.dataStar,
      ∃ r ∈ c.elems, isRatingInputWithValue d1 r = true)
    (hclick : closest isStar c target = some star)
    (hs : c.elems[star]? = some s) (hd : s.dataStar = some d)
    (hv : Number d = some (v : Int)) :
    ∃ input r, querySelector (isRatingInputWithValue d) c.elems = some input ∧
      c.elems[input]? = some r ∧ r.type = "radio" ∧ r.valueAttr = some d ∧
      ∀ (j : Nat) (e : Elem), c.elems[j]? = some e →
        ∃ e1, (dispatch (.click target) c).elems[j]? = some e1 ∧
          { e1 with classList := e.classList, checked := e.checked } = e ∧
          (∀ d1 ∈ e.dataStar, ∃ k ∈ List.range (N + 1), 1 ≤ k ∧ Number d1 = some (k : Int) ∧
            (e1.selected = true ↔ k ≤ v)) ∧
          (isRatingInput e = true → (e1.checked = true ↔ j = input)) := by
  obtain ⟨r0, hr0, hr0sel⟩ := hbacking s (List.getElem?_mem hs) d hd
  obtain ⟨input, hq⟩ := querySelector_of_mem hr0 hr0sel
  obtain ⟨inp, hinp, hsel, _⟩ := querySelector_eq_some hq
  have hsel1 := hsel
  simp only [isRatingInputWithValue, Bool.and_eq_true, beq_iff_eq] at hsel1
  have htype : inp.type = "radio" := hradio inp (List.getElem?_mem hinp) hsel1.1
  refine ⟨input, inp, hq, hinp, htype, hsel1.2, ?_⟩
  have hclickEq : dispatch (.click target) c = sync (Number d) (setChecked input c) := by
    rw [dispatch_click_of_bound c hb]
    simp only [ratingClickHandler, hclick, hs, Option.some_bind, hd, hq]
    have hb2 : RatingBound (setChecked input c) := by
      unfold RatingBound
      rw [setChecked_listeners]
      refine ⟨?_, hb.2⟩
      have : (setChecked input c).ratingBound = c.ratingBound := by
        unfold setChecked
        split <;> rfl
      rw [this, hb.1]
    have hx : (setChecked input c).elems[input]? = some { inp with checked := true } := by
      rw [setChecked_elem c input inp hinp]
      simp
    rw [dispatchChange_rating (setChecked input c) hb2 input _ hx hsel1.1
      (isTagCheckbox_of_radio htype), getCurrentRating_setChecked c input inp d hradio hinp hsel]
  intro j e he
  rw [hclickEq]
  have h2 := setChecked_elem c input inp hinp j
  by_cases hj : input = j
  · subst hj
    rw [hinp] at he
    simp only [Option.some.injEq] at he
    subst he
    simp only [if_true] at h2
    obtain ⟨e1, he1, hf, _, _, hstar⟩ := sync_elem_spec (Number d) (setChecked input c) input _ h2
    refine ⟨e1, he1, ?_, ?_, ?_⟩
    · cases e1
      cases inp
      simp only [Elem.mk.injEq] at hf ⊢
      simp only [hf, and_self]
    · intro d1 hd1
      obtain ⟨k, hk, hk1, hkn⟩ := hstars inp (List.getElem?_mem hinp) d1 hd1
      refine ⟨k, hk, hk1, hkn, ?_⟩
      rw [hstar d1 hd1, hkn, hv]
      simp [jsLe]
    · intro _
      have hc : e1.checked = true := by
        have := congrArg Elem.checked hf
        simpa using this
      simp [hc]
  · simp only [hj, if_false, he, Option.map_some'] at h2
    obtain ⟨e1, he1, hf, _, _, hstar⟩ := sync_elem_spec (Number d) (setChecked input c) j _ h2
    refine ⟨e1, he1, ?_, ?_, ?_⟩
    · by_cases hg : sameRadioGroup inp e = true
      · simp only [hg, if_true] at hf
        cases e1
        cases e
        simp only [Elem.mk.injEq] at hf ⊢
        simp only [hf, and_self]
      · simp only [hg, Bool.false_eq_true, if_false] at hf
        cases e1
        cases e
        simp only [Elem.mk.injEq] at hf ⊢
        simp only [hf, and_self]
    · intro d1 hd1
      obtain ⟨k, hk, hk1, hkn⟩ := hstars e (List.getElem?_mem he) d1 hd1
      refine ⟨k, hk, hk1, hkn, ?_⟩
      have hds : (if sameRadioGroup inp e = true then { e with checked := false } else e).dataStar
          = some d1 := by
        split <;> exact hd1
      rw [hstar d1 hds, hkn, hv]
      simp [jsLe]
    · intro hre
      have hg : sameRadioGroup inp e = true :=
        sameRadioGroup_of_rating hsel1.1 hre htype (hradio e (List.getElem?_mem he) hre)
      simp only [hg, if_true] at hf
      have hc : e1.checked = false := by
        have := congrArg Elem.checked hf
        simpa using this
      simp only [hc, Bool.false_eq_true, false_iff]
      exact fun h => hj h.symm

/-- C1, at the bound five-star container with 3 committed: a click on the
glyph inside star 4 (position 13, whose nearest star is at position 8). -/
theorem click_star_selects_up_to_witness :
    RatingBound boundRating ∧
    ∃ input r, querySelector (isRatingInputWithValue "4") boundRating.elems = some input ∧
      boundRating.elems[input]? = some r ∧ r.type = "radio" ∧ r.valueAttr = some "4" ∧
      ∀ (j : Nat) (e : Elem), boundRating.elems[j]? = some e →
        ∃ e1, (dispatch (.click 13) boundRating).elems[j]? = some e1 ∧
          { e1 with classList := e.classList, checked := e.checked } = e ∧
          (∀ d1 ∈ e.dataStar, ∃ k ∈ List.range (5 + 1), 1 ≤ k ∧ Number d1 = some (k : Int) ∧
            (e1.selected = true ↔ k ≤ 4)) ∧
          (isRatingInput e = true → (e1.checked = true ↔ j = input)) :=
  ⟨by decide,
    click_star_selects_up_to boundRating 5 13 8 (starElem "4") "4" 4
      (by decide) (by decide) (by decide) (by decide) (by decide) (by decide) (by decide)
      (by decide)⟩


/-! ## review.js : binding -/

theorem initRatingContainer_of_bound (c : Container) (h : c.ratingBound = true) :
    initRatingContainer c = c := by
  simp [initRatingContainer, h]

theorem initTagsContainer_of_bound (c : Container) (h : c.tagsBound = true) :
    initTagsContainer c = ⟨c, none⟩ := by
  simp [initTagsContainer, h]

theorem initRatingContainer_of_unbound (c : Container) (h : c.ratingBound = false) :
    (initRatingContainer c).ancestors = c.ancestors ∧
    (initRatingContainer c).dataRatingContainer = c.dataRatingContainer ∧
    (initRatingContainer c).dataTagsContainer = c.dataTagsContainer ∧
    (initRatingContainer c).ratingBound = true ∧
    (initRatingContainer c).tagsBound = c.tagsBound ∧
    (initRatingContainer c).listeners = c.listeners ++ ratingListeners := by
  simp only [initRatingContainer, h, Bool.false_eq_true, if_false]
  exact ⟨rfl, rfl, rfl, rfl, rfl, rfl⟩

theorem sync_stripped (rating : JsNum) (c : Container) :
    (sync rating c).elems.map Elem.stripped = c.elems.map Elem.stripped := by
  apply List.ext_getElem?
  intro j
  simp only [List.getElem?_map, sync_elem]
  cases c.elems[j]? with
  | none => rfl
  | some e =>
    simp only [Option.map_some', Option.some.injEq]
    cases e with
    | mk parent localName type name valueAttr checked dataStar dataTagLabel classList =>
      cases dataStar <;> rfl

theorem initRatingContainer_stripped (c : Container) :
    (initRatingContainer c).elems.map Elem.stripped = c.elems.map Elem.stripped := by
  unfold initRatingContainer
  split
  · rfl
  · exact sync_stripped _ _

theorem isUnder_congr (root : Option Nat) {c c1 : Container} (h : c1.ancestors = c.ancestors) :
    isUnder root c1 = isUnder root c := by
  unfold isUnder
  rw [h]

theorem bindRating_spec (root : Option Nat) (c : Container) :
    ∃ r, (if (isUnder root c && c.dataRatingContainer) = true then initRatingContainer c else c) = r ∧
      r.ancestors = c.ancestors ∧
      r.dataRatingContainer = c.dataRatingContainer ∧
      r.dataTagsContainer = c.dataTagsContainer ∧
      r.tagsBound = c.tagsBound ∧
      r.ratingBound = (c.ratingBound || (isUnder root c && c.dataRatingContainer)) ∧
      r.listeners = c.listeners ++
        (if (isUnder root c && c.dataRatingContainer && !c.ratingBound) = true
          then ratingListeners else []) ∧
      ((isUnder root c && c.dataRatingContainer && !c.ratingBound) = false → r = c) := by
  refine ⟨_, rfl, ?_⟩
  by_cases hu : (isUnder root c && c.dataRatingContainer) = true
  · by_cases hbd : c.ratingBound = true
    · simp [hu, hbd, initRatingContainer_of_bound c hbd]
    · have hbd1 : c.ratingBound = false := by simpa using hbd
      obtain ⟨h1, h2, h3, h4, h5, h6⟩ := initRatingContainer_of_unbound c hbd1
      simp only [hu, if_true, h1, h2, h3, h4, h5, h6, hbd1, Bool.not_false, Bool.and_self,
        Bool.false_or, true_and]
      simp
  · have hu1 : (isUnder root c && c.dataRatingContainer) = false := by simpa using hu
    simp [hu1]

theorem bindRating_stripped (root : Option Nat) (c : Container) :
    (if (isUnder root c && c.dataRatingContainer) = true then initRatingContainer c
      else c).elems.map Elem.stripped = c.elems.map Elem.stripped := by
  split
  · exact initRatingContainer_stripped c
  · rfl

theorem bindTags_spec (root : Option Nat) (c : Container) :
    ∃ r, (if (isUnder root c && c.dataTagsContainer) = true then (initTagsContainer c).state
          else c) = r ∧
      r.ancestors = c.ancestors ∧
      r.dataRatingContainer = c.dataRatingContainer ∧
      r.dataTagsContainer = c.dataTagsContainer ∧
      r.ratingBound = c.ratingBound ∧
      r.tagsBound = (c.tagsBound || (isUnder root c && c.dataTagsContainer)) ∧
      r.listeners = c.listeners ++
        (if (isUnder root c && c.dataTagsContainer && !c.tagsBound) = true
          then [.tagsChange] else []) ∧
      ((isUnder root c && c.dataTagsContainer && !c.tagsBound) = false → r = c) := by
  refine ⟨_, rfl, ?_⟩
  by_cases hu : (isUnder root c && c.dataTagsContainer) = true
  · by_cases hbd : c.tagsBound = true
    · simp [hu, hbd, initTagsContainer_of_bound c hbd]
    · have hbd1 : c.tagsBound = false := by simpa using hbd
      obtain ⟨h1, h2, h3, h4, h5, h6⟩ := initTagsContainer_fields c
      simp only [hu, if_true, h1, h2, h3, h4, h5, h6, hbd1, Bool.not_false, Bool.and_self,
        Bool.false_or, true_and]
      simp
  · have hu1 : (isUnder root c && c.dataTagsContainer) = false := by simpa using hu
    simp [hu1]

theorem bindBoth_spec (root : Option Nat) (c : Container) :
    ∃ t, (let r := if (isUnder root c && c.dataRatingContainer) = true
                    then initRatingContainer c else c
          if (isUnder root r && r.dataTagsContainer) = true then (initTagsContainer r).state
          else r) = t ∧
      t.ancestors = c.ancestors ∧
      t.dataRatingContainer = c.dataRatingContainer ∧
      t.dataTagsContainer = c.dataTagsContainer ∧
      t.ratingBound = (c.ratingBound || (isUnder root c && c.dataRatingContainer)) ∧
      t.tagsBound = (c.tagsBound || (isUnder root c && c.dataTagsContainer)) ∧
      t.listeners = c.listeners
        ++ (if (isUnder root c && c.dataRatingContainer && !c.ratingBound) = true
            then ratingListeners else [])
        ++ (if (isUnder root c && c.dataTagsContainer && !c.tagsBound) = true
            then [.tagsChange] else []) ∧
      ((isUnder root c && c.dataRatingContainer && !c.ratingBound) = false →
        (isUnder root c && c.dataTagsContainer && !c.tagsBound) = false → t = c) := by
  obtain ⟨r, hr, r1, r2, r3, r4, r5, r6, r7⟩ := bindRating_spec root c
  obtain ⟨t, ht, t1, t2, t3, t4, t5, t6, t7⟩ := bindTags_spec root r
  have hu : isUnder root r = isUnder root c := isUnder_congr root r1
  refine ⟨t, ?_, t1.trans r1, t2.trans r2, t3.trans r3, t4.trans r5, ?_, ?_, ?_⟩
  · simp only [hr]
    exact ht
  · rw [t5, r4, hu, r3]
  · rw [t6, r6, hu, r3, r4]
  · intro h1 h2
    rw [hu, r3, r4] at t7
    rw [t7 h2, r7 h1]

theorem tagValuesSafe_of_stripped {c c1 : Container}
    (h : c1.elems.map Elem.stripped = c.elems.map Elem.stripped)
    (hsafe : ∀ j ∈ querySelectorAll isTagCheckbox c.elems, ∀ b ∈ c.elems[j]?,
      cssSafe b.value = true) :
    ∀ j ∈ querySelectorAll isTagCheckbox c1.elems, ∀ b ∈ c1.elems[j]?,
      cssSafe b.value = true := by
  intro j hj b hb
  have hb1 : c1.elems[j]? = some b := hb
  obtain ⟨e, he, hsel⟩ := mem_querySelectorAll.mp hj
  rw [hb1] at he
  simp only [Option.some.injEq] at he
  subst he
  obtain ⟨a, ha, hab⟩ := stripped_elem h.symm j b hb1
  have hsa : isTagCheckbox a = true := by
    have h1 : isTagCheckbox a = isTagCheckbox a.stripped := rfl
    have h2 : isTagCheckbox b = isTagCheckbox b.stripped := rfl
    rw [h1, hab, ← h2, hsel]
  rw [← value_of_stripped hab]
  exact hsafe j (mem_querySelectorAll.mpr ⟨a, ha, hsa⟩) a ha

theorem initTagsContainer_no_throw (c : Container)
    (hsafe : c.tagsBound = false → ∀ j ∈ querySelectorAll isTagCheckbox c.elems,
      ∀ b ∈ c.elems[j]?, cssSafe b.value = true) :
    (initTagsContainer c).thrown = none := by
  by_cases hbd : c.tagsBound = true
  · rw [initTagsContainer_of_bound c hbd]
  · have hbd1 : c.tagsBound = false := by simpa using hbd
    rw [initTagsContainer_of_safe c hbd1 (hsafe hbd1)]

theorem initTagsEach_of_no_throw (root : Option Nat) (cs : List Container)
    (h : ∀ c ∈ cs, (isUnder root c && c.dataTagsContainer) = true →
      (initTagsContainer c).thrown = none) :
    initTagsEach root cs =
      ⟨cs.map fun c =>
        if (isUnder root c && c.dataTagsContainer) = true then (initTagsContainer c).state
        else c, none⟩ := by
  induction cs with
  | nil => rfl
  | cons c rest ih =>
    have ih1 := ih (fun x hx => h x (List.mem_cons_of_mem _ hx))
    unfold initTagsEach
    by_cases hu : (isUnder root c && c.dataTagsContainer) = true
    · have hno := h c (List.mem_cons_self _ _) hu
      simp only [hu, if_true, hno, ih1, List.map_cons]
    · simp only [hu, Bool.false_eq_true, if_false, ih1, List.map_cons]

theorem initReviewUI_of_no_throw (root : Option Nat) (p : ReviewPage)
    (h : ∀ c ∈ p.containers, (isUnder root c && c.dataTagsContainer && !c.tagsBound) = true →
      ∀ j ∈ querySelectorAll isTagCheckbox c.elems, ∀ b ∈ c.elems[j]?,
        cssSafe b.value = true) :
    (initReviewUI root p).thrown = none ∧
    ∀ i : Nat, (initReviewUI root p).state.containers[i]? = (p.containers[i]?).map fun c =>
      let r := if (isUnder root c && c.dataRatingContainer) = true then initRatingContainer c else c
      if (isUnder root r && r.dataTagsContainer) = true then (initTagsContainer r).state
      else r := by
  have hno : ∀ r ∈ (initRating root p).containers,
      (isUnder root r && r.dataTagsContainer) = true → (initTagsContainer r).thrown = none := by
    intro r hr hu
    simp only [initRating, List.mem_map] at hr
    obtain ⟨c, hc, hcr⟩ := hr
    obtain ⟨r1, hr1, a1, _, a3, a4, _⟩ := bindRating_spec root c
    have hstr := bindRating_stripped root c
    rw [hr1] at hstr
    rw [hcr] at hr1
    subst hr1
    apply initTagsContainer_no_throw
    intro hbd
    apply tagValuesSafe_of_stripped hstr
    apply h c hc
    rw [isUnder_congr root a1, a3] at hu
    rw [a4] at hbd
    simp [hu, hbd]
  have heach := initTagsEach_of_no_throw root (initRating root p).containers hno
  constructor
  · simp only [initReviewUI, initTags, heach]
  · intro i
    simp only [initReviewUI, initTags, heach, List.getElem?_map]
    simp only [initRating, List.getElem?_map, Option.map_map]
    rfl

/-- C4 (amended): for every page and every root such that no tag checkbox of a
tag container below the root that lacks `__tagsBound` has a double quote,
backslash, line break or null character in its value, `initReviewUI(root)`
throws nothing and registers the listeners of `initRating` on exactly the
rating containers below the root that lack the marker `__ratingBound`, and the
listener of `initTags` on exactly the tag containers below the root that lack
`__tagsBound`; every container below the root then carries the marker of its
kind; a container that gets no listener is left exactly as it was, class lists
included.  A second call with the same root throws nothing and changes
nothing.  After two calls a container that was fresh before the first one
holds each listener once, so that a click runs the click handler once and a
change of a tag checkbox runs `syncOne` once. -/
theorem initReviewUI_binds_each_container_once (p : ReviewPage) (root : Option Nat)
    (hsafe : ∀ c ∈ p.containers,
      (isUnder root c && c.dataTagsContainer && !c.tagsBound) = true →
      ∀ j ∈ querySelectorAll isTagCheckbox c.elems, ∀ b ∈ c.elems[j]?,
        cssSafe b.value = true) :
    (initReviewUI root p).thrown = none ∧
    (∀ (i : Nat) (c : Container), p.containers[i]? = some c →
      ∃ c1, (initReviewUI root p).state.containers[i]? = some c1 ∧
        c1.listeners = c.listeners
          ++ (if (isUnder root c && c.dataRatingContainer && !c.ratingBound) = true
              then ratingListeners else [])
          ++ (if (isUnder root c && c.dataTagsContainer && !c.tagsBound) = true
              then [.tagsChange] else []) ∧
        c1.ratingBound = (c.ratingBound || (isUnder root c && c.dataRatingContainer)) ∧
        c1.tagsBound = (c.tagsBound || (isUnder root c && c.dataTagsContainer)) ∧
        ((isUnder root c && c.dataRatingContainer && !c.ratingBound) = false →
          (isUnder root c && c.dataTagsContainer && !c.tagsBound) = false → c1 = c)) ∧
    initReviewUI root (initReviewUI root p).state = ⟨(initReviewUI root p).state, none⟩ ∧
    (∀ (i : Nat) (c : Container), p.containers[i]? = some c → c.listeners = [] →
      c.ratingBound = false → isUnder root c = true → c.dataRatingContainer = true →
      ∃ c2, (initReviewUI root (initReviewUI root p).state).state.containers[i]? = some c2 ∧
        RatingBound c2 ∧ c2.listeners.count .ratingClick = 1 ∧
        ∀ target, dispatch (.click target) c2 = ratingClickHandler target c2) ∧
    (∀ (i : Nat) (c : Container), p.containers[i]? = some c → c.listeners = [] →
      c.tagsBound = false → isUnder root c = true → c.dataTagsContainer = true →
      ∃ c2, (initReviewUI root (initReviewUI root p).state).state.containers[i]? = some c2 ∧
        TagsBound c2 ∧ c2.listeners.count .tagsChange = 1 ∧
        ∀ (t : Nat) (box : Elem), c2.elems[t]? = some box → isTagCheckbox box = true →
          dispatch (.change t) c2 = (syncOne t c2).state ∧
          dispatchErrors (.change t) c2 = (syncOne t c2).thrown.toList) := by
  obtain ⟨hthrown, hcont⟩ := initReviewUI_of_no_throw root p hsafe
  have hbound : ∀ t ∈ (initReviewUI root p).state.containers,
      (isUnder root t && t.dataTagsContainer && !t.tagsBound) = false ∧
      (isUnder root t && t.dataRatingContainer && !t.ratingBound) = false := by
    intro t ht
    obtain ⟨i, hi⟩ := List.getElem?_of_mem ht
    rw [hcont i] at hi
    cases hc : p.containers[i]? with
    | none => rw [hc] at hi; simp at hi
    | some c =>
      rw [hc] at hi
      simp only [Option.map_some', Option.some.injEq] at hi
      obtain ⟨t1, ht1, a1, a2, a3, a4, a5, _, _⟩ := bindBoth_spec root c
      simp only at ht1
      rw [hi] at ht1
      subst ht1
      rw [isUnder_congr root a1, a2, a3, a4, a5]
      constructor
      · cases isUnder root c <;> cases c.dataTagsContainer <;> cases c.tagsBound <;> rfl
      · cases isUnder root c <;> cases c.dataRatingContainer <;> cases c.ratingBound <;> rfl
  have hidem : initReviewUI root (initReviewUI root p).state
      = ⟨(initReviewUI root p).state, none⟩ := by
    obtain ⟨hthrown2, hcont2⟩ := initReviewUI_of_no_throw root (initReviewUI root p).state
      (fun t ht hu => by rw [(hbound t ht).1] at hu; simp at hu)
    have hc : (initReviewUI root (initReviewUI root p).state).state.containers
        = (initReviewUI root p).state.containers := by
      apply List.ext_getElem?
      intro i
      rw [hcont2 i]
      cases ht : (initReviewUI root p).state.containers[i]? with
      | none => rfl
      | some t =>
        simp only [Option.map_some', Option.some.injEq]
        obtain ⟨u, hu, _, _, _, _, _, _, u7⟩ := bindBoth_spec root t
        simp only at hu
        rw [hu]
        have hb := hbound t (List.getElem?_mem ht)
        exact u7 hb.2 hb.1
    cases h1 : initReviewUI root (initReviewUI root p).state with
    | mk s1 th1 =>
      rw [h1] at hthrown2 hc
      simp only at hthrown2 hc
      subst hthrown2
      cases s1
      cases h2 : (initReviewUI root p).state
      rw [h2] at hc
      simp only at hc
      rw [hc]
  refine ⟨hthrown, ?_, hidem, ?_, ?_⟩
  · intro i c hi
    obtain ⟨t, ht, _, _, _, t4, t5, t6, t7⟩ := bindBoth_spec root c
    refine ⟨t, ?_, t6, t4, t5, t7⟩
    rw [hcont i, hi]
    simp only [Option.map_some', Option.some.injEq] at ht ⊢
    exact ht
  · intro i c hi hl hbd hu hd
    obtain ⟨t, ht, _, _, _, t4, _, t6, _⟩ := bindBoth_spec root c
    have hget : (initReviewUI root (initReviewUI root p).state).state.containers[i]? = some t := by
      rw [hidem]
      simp only
      rw [hcont i, hi]
      simp only [Option.map_some', Option.some.injEq] at ht ⊢
      exact ht
    have hls : t.listeners = ratingListeners
        ++ (if (c.dataTagsContainer && !c.tagsBound) = true then [.tagsChange] else []) := by
      rw [t6, hl, hu, hd, hbd]
      simp
    have hrb : RatingBound t := by
      refine ⟨by rw [t4, hu, hd]; simp, ?_⟩
      rw [hls]
      split <;> rfl
    refine ⟨t, hget, hrb, ?_, fun target => dispatch_click_of_bound t hrb target⟩
    rw [hls]
    split <;> rfl
  · intro i c hi hl hbd hu hd
    obtain ⟨t, ht, _, _, _, _, t5, t6, _⟩ := bindBoth_spec root c
    have hget : (initReviewUI root (initReviewUI root p).state).state.containers[i]? = some t := by
      rw [hidem]
      simp only
      rw [hcont i, hi]
      simp only [Option.map_some', Option.some.injEq] at ht ⊢
      exact ht
    have hls : t.listeners
        = (if (c.dataRatingContainer && !c.ratingBound) = true then ratingListeners else [])
          ++ [.tagsChange] := by
      rw [t6, hl, hu, hd, hbd]
      simp
    have htb : TagsBound t := by
      refine ⟨by rw [t5, hu, hd]; simp, ?_⟩
      rw [hls]
      split <;> rfl
    refine ⟨t, hget, htb, ?_, fun tg box hbox hsel => dispatch_change_tag t htb tg box hbox hsel⟩
    rw [hls]
    split <;> rfl

/-- C4 (amended), at the scenario of the specification: a swap below node 2
brought a new tag container beside a rating container bound earlier; the call
binds the tag container and leaves the rating container as it was, and a
second call changes nothing. -/
theorem initReviewUI_binds_each_container_once_witness :
    (initReviewUI (some 2) swappedPage).thrown = none ∧
    initReviewUI (some 2) (initReviewUI (some 2) swappedPage).state
      = ⟨(initReviewUI (some 2) swappedPage).state, none⟩ ∧
    (initReviewUI (some 2) swappedPage).state = { containers := [boundRating, boundTags] } ∧
    boundTags.listeners = [.tagsChange] ∧ boundRating.listeners = ratingListeners :=
  ⟨(initReviewUI_binds_each_container_once swappedPage (some 2) (by decide)).1,
    (initReviewUI_binds_each_container_once swappedPage (some 2) (by decide)).2.2.1,
    by decide, by decide, by decide⟩

/-- C4 (as stated) fails: on a page with two unbound tag containers, the first
one holding a checkbox whose value carries double quotes, `initReviewUI()`
throws a SyntaxError while binding the first container and never visits the
second one: it lies below the root, lacks `__tagsBound` and has received no
listener.  A second call binds it, so two calls do not leave the state of
one call. -/
theorem initReviewUI_quoted_value_not_idempotent :
    (initReviewUI none quotePage).thrown = some (.syntaxError "not a valid selector") ∧
    (∃ c1, (initReviewUI none quotePage).state.containers[1]? = some c1 ∧
      isUnder none c1 = true ∧ c1.dataTagsContainer = true ∧ c1.tagsBound = false ∧
      c1.listeners = []) ∧
    (∃ c2, (initReviewUI none (initReviewUI none quotePage).state).state.containers[1]? = some c2 ∧
      c2.tagsBound = true ∧ c2.listeners = [.tagsChange]) ∧
    (initReviewUI none (initReviewUI none quotePage).state).state
      ≠ (initReviewUI none quotePage).state := by
  refine ⟨by decide, ⟨_, rfl, by decide, by decide, by decide, by decide⟩,
    ⟨_, rfl, by decide, by decide⟩, by decide⟩

/-! ## Further properties -/

/-- X1: review.js skips markup that lacks an expected element.  In a bound
rating container a click on a star whose ordinal text (free of double quote,
backslash, line break and null character) is the value of no input named
`rating` leaves the container exactly as it was; in a bound tag container a
change of a tag checkbox whose value (free of those characters) is the
`data-tag-label` of no element leaves the container exactly as it was and
throws nothing. -/
theorem review_skips_missing_elements (c : Container) :
    (∀ (target star : Nat) (s : Elem) (d : String), RatingBound c →
      closest isStar c target = some star → c.elems[star]? = some s → s.dataStar = some d →
      cssSafe d = true → querySelector (isRatingInputWithValue d) c.elems = none →
      dispatch (.click target) c = c) ∧
    (∀ (t : Nat) (box : Elem), TagsBound c → c.elems[t]? = some box →
      isTagCheckbox box = true → cssSafe box.value = true →
      querySelector (isTagLabel box.value) c.elems = none →
      dispatch (.change t) c = c ∧ dispatchErrors (.change t) c = []) := by
  constructor
  · intro target star s d hb hclick hs hd _ hq
    rw [dispatch_click_of_bound c hb]
    simp only [ratingClickHandler, hclick, hs, Option.some_bind, hd, hq]
  · intro t box hb ht hbox hsafe hq
    obtain ⟨h1, h2⟩ := dispatch_change_tag c hb t box ht hbox
    rw [h1, h2, syncOne_of_safe c t box ht hsafe]
    simp only [toggleLabel, hq, Option.toList, and_self]

/-- X1, at a five-star container without radios (a click on star 4) and at a
tag container whose checkbox `action` has no label. -/
theorem review_skips_missing_elements_witness :
    dispatch (.click 3) (initRatingContainer (starsOnly 5)) = initRatingContainer (starsOnly 5) ∧
    dispatch (.change 0) unlabelledTags = unlabelledTags ∧
    dispatchErrors (.change 0) unlabelledTags = [] :=
  ⟨(review_skips_missing_elements (initRatingContainer (starsOnly 5))).1 3 3
      ((initRatingContainer (starsOnly 5)).elems.getD 3 (starElem "4")) "4"
      (by decide) (by decide) (by decide) (by decide) (by decide) (by decide),
    (review_skips_missing_elements unlabelledTags).2 0 (tagCheckbox "action" true)
      (by decide) (by decide) (by decide) (by decide) (by decide)⟩

set_option maxRecDepth 100000 in
/-- X2: with at most nine radios the two form-backed star implementations
agree.  For 1 ≤ r ≤ N ≤ 9, `highlightStars` of script.js run with the value
of radio `r` does not throw and marks the label of radio `k` active exactly
when `sync` of review.js run with `Number` of that value selects star `k`,
that is exactly when `k ≤ r`. -/
theorem highlightStars_agrees_with_sync_below_ten (N r : Nat) (hN : N ≤ 9) (h1 : 1 ≤ r)
    (hr : r ≤ N) :
    (highlightStars (toString r) (radios N)).thrown = none ∧
    (highlightStars (toString r) (radios N)).state.map FormInput.siblingActive
      = (sync (Number (toString r)) (starsOnly N)).elems.map Elem.selected ∧
    (sync (Number (toString r)) (starsOnly N)).elems.map Elem.selected
      = (List.range N).map fun k => decide (k + 1 ≤ r) := by
  have key : ∀ N ∈ List.range 10, ∀ r ∈ List.range (N + 1), 1 ≤ r →
      (highlightStars (toString r) (radios N)).thrown = none ∧
      (highlightStars (toString r) (radios N)).state.map FormInput.siblingActive
        = (sync (Number (toString r)) (starsOnly N)).elems.map Elem.selected ∧
      (sync (Number (toString r)) (starsOnly N)).elems.map Elem.selected
        = (List.range N).map fun k => decide (k + 1 ≤ r) := by
    decide
  exact key N (List.mem_range.mpr (by omega)) r (List.mem_range.mpr (by omega)) h1

/-- X2, at five radios with the value 3 selected. -/
theorem highlightStars_agrees_with_sync_below_ten_witness :
    (highlightStars (toString 3) (radios 5)).thrown = none ∧
    (highlightStars (toString 3) (radios 5)).state.map FormInput.siblingActive
      = (sync (Number (toString 3)) (starsOnly 5)).elems.map Elem.selected ∧
    (sync (Number (toString 3)) (starsOnly 5)).elems.map Elem.selected
      = (List.range 5).map fun k => decide (k + 1 ≤ 3) :=
  highlightStars_agrees_with_sync_below_ten 5 3 (by decide) (by decide) (by decide)

theorem setChecked_markers (c : Container) (input : Nat) :
    (setChecked input c).listeners = c.listeners ∧
    (setChecked input c).ratingBound = c.ratingBound ∧
    (setChecked input c).tagsBound = c.tagsBound := by
  unfold setChecked
  split <;> exact ⟨rfl, rfl, rfl⟩

theorem handleChange_markers (l : Listener) (target : Nat) (c : Container) :
    (handleChange l target c).state.listeners = c.listeners ∧
    (handleChange l target c).state.ratingBound = c.ratingBound ∧
    (handleChange l target c).state.tagsBound = c.tagsBound := by
  cases l with
  | ratingChange =>
    simp only [handleChange, ratingChangeHandler]
    split
    · exact ⟨rfl, rfl, rfl⟩
    · split <;> exact ⟨rfl, rfl, rfl⟩
  | tagsChange =>
    simp only [handleChange, tagsChangeHandler]
    split
    · exact ⟨rfl, rfl, rfl⟩
    · split
      · obtain ⟨_, _, _, h4, h5, h6⟩ := syncOne_fields c target
        exact ⟨h6, h4, h5⟩
      · exact ⟨rfl, rfl, rfl⟩
  | ratingClick => exact ⟨rfl, rfl, rfl⟩
  | ratingMouseover => exact ⟨rfl, rfl, rfl⟩
  | ratingMouseleave => exact ⟨rfl, rfl, rfl⟩

theorem foldl_markers (f : Listener → Container → Container)
    (hf : ∀ l c, (f l c).listeners = c.listeners ∧ (f l c).ratingBound = c.ratingBound ∧
      (f l c).tagsBound = c.tagsBound)
    (ls : List Listener) (c : Container) :
    (ls.foldl (fun acc l => f l acc) c).listeners = c.listeners ∧
    (ls.foldl (fun acc l => f l acc) c).ratingBound = c.ratingBound ∧
    (ls.foldl (fun acc l => f l acc) c).tagsBound = c.tagsBound := by
  induction ls generalizing c with
  | nil => exact ⟨rfl, rfl, rfl⟩
  | cons l ls ih =>
    simp only [List.foldl_cons]
    obtain ⟨h1, h2, h3⟩ := ih (f l c)
    obtain ⟨g1, g2, g3⟩ := hf l c
    exact ⟨h1.trans g1, h2.trans g2, h3.trans g3⟩

theorem handle_markers (l : Listener) (ev : Event) (c : Container) :
    (handle l ev c).state.listeners = c.listeners ∧
    (handle l ev c).state.ratingBound = c.ratingBound ∧
    (handle l ev c).state.tagsBound = c.tagsBound := by
  cases ev with
  | change target =>
    rw [handle_change_eq]
    exact handleChange_markers l target c
  | mouseleave => cases l <;> exact ⟨rfl, rfl, rfl⟩
  | mouseover target =>
    cases l with
    | ratingMouseover =>
      simp only [handle, ratingMouseoverHandler]
      split
      · exact ⟨rfl, rfl, rfl⟩
      · split <;> exact ⟨rfl, rfl, rfl⟩
    | ratingChange => exact ⟨rfl, rfl, rfl⟩
    | tagsChange => exact ⟨rfl, rfl, rfl⟩
    | ratingClick => exact ⟨rfl, rfl, rfl⟩
    | ratingMouseleave => exact ⟨rfl, rfl, rfl⟩
  | click target =>
    cases l with
    | ratingClick =>
      simp only [handle, ratingClickHandler]
      split
      · exact ⟨rfl, rfl, rfl⟩
      · split
        · exact ⟨rfl, rfl, rfl⟩
        · split
          · exact ⟨rfl, rfl, rfl⟩
          · rename_i input _
            obtain ⟨g1, g2, g3⟩ := setChecked_markers c input
            obtain ⟨k1, k2, k3⟩ := foldl_markers (fun l acc => (handleChange l input acc).state)
              (fun l acc => handleChange_markers l input acc) (setChecked input c).listeners
              (setChecked input c)
            exact ⟨k1.trans g1, k2.trans g2, k3.trans g3⟩
    | ratingChange => exact ⟨rfl, rfl, rfl⟩
    | tagsChange => exact ⟨rfl, rfl, rfl⟩
    | ratingMouseover => exact ⟨rfl, rfl, rfl⟩
    | ratingMouseleave => exact ⟨rfl, rfl, rfl⟩

/-- X3: no event changes the binding of a container.  Whatever event a
container receives, its listeners and its two markers are afterwards what
they were; so a rating container bound once stays bound once, and likewise a
tag container. -/
theorem dispatch_keeps_binding (ev : Event) (c : Container) :
    (dispatch ev c).listeners = c.listeners ∧
    (dispatch ev c).ratingBound = c.ratingBound ∧
    (dispatch ev c).tagsBound = c.tagsBound ∧
    (RatingBound (dispatch ev c) ↔ RatingBound c) ∧
    (TagsBound (dispatch ev c) ↔ TagsBound c) := by
  obtain ⟨h1, h2, h3⟩ := foldl_markers (fun l acc => (handle l ev acc).state)
    (fun l acc => handle_markers l ev acc) c.listeners c
  refine ⟨h1, h2, h3, ?_, ?_⟩
  · unfold RatingBound dispatch
    rw [h1, h2]
  · unfold TagsBound dispatch
    rw [h1, h3]


/-- X4: in movie.js a rejected fetch is caught and logged.  For every page and
every star with an enclosing container, when the promise of `fetch` is
rejected the handler writes one line to the console with `console.error` and
leaves every star as it was. -/
theorem movie_click_rejected_logs (p : MoviePage) (i : Nat) (this : RatingStar)
    (container : RatingContainerRef) (error : String)
    (hthis : p.ratingStars[i]? = some this) (hcont : this.closestContainer = some container) :
    ∃ p1, ratingStarClick p i (.rejected error) = .ok p1 ∧
      p1.ratingStars = p.ratingStars ∧
      p1.console = p.console ++ ["Error updating rating: " ++ error] := by
  refine ⟨{ p with console := p.console ++ ["Error updating rating: " ++ error] }, ?_, rfl, rfl⟩
  simp [ratingStarClick, hthis, clickBegin, hcont, clickSettle]

/-- X4, at movie 42 with a network failure. -/
theorem movie_click_rejected_logs_witness :
    ∃ p1, ratingStarClick page42 3 (.rejected "TypeError: Failed to fetch") = .ok p1 ∧
      p1.ratingStars = page42.ratingStars ∧
      p1.console = page42.console ++ ["Error updating rating: " ++ "TypeError: Failed to fetch"] :=
  movie_click_rejected_logs page42 3 ⟨some "4", some movie42, ["rating-star"]⟩ movie42
    "TypeError: Failed to fetch" (by decide) (by decide)

end OurMovies
